import Mathlib

/-!
# Secretless proxy orchestrator and Summon sub-command

A shallow embedding of `internal/app/secretless/proxy.go` and
`internal/app/summon/command/run.go`.

* Go strings are Lean strings; a Go `error` is represented by its `Error()` text.
* Effects (socket binds, log lines, goroutine starts, signal registration, calls to
  collaborators) are recorded in an explicit trace, in program order.
* `panic` and `log.Fatal` end the execution; they are recorded as the `abort` of a call.
* Go maps are association lists with pairwise distinct keys; the order of the list is the
  order in which a `range` loop visits the entries.
-/

set_option autoImplicit false
set_option linter.dupNamespace false

namespace Secretless

/-! ## Go runtime pieces -/

/-- The text of a Go `error`, as returned by `err.Error()`. -/
abbrev error := String

/-- A Go byte slice, represented by the Go string holding the same bytes. -/
structure Bytes where
  str : String
  deriving DecidableEq, Repr

/-- The Go conversion `string(b)` of a byte slice. -/
def Bytes.string (b : Bytes) : String := b.str

/-- Expansion of the `%s` verbs of a format, left to right. A verb without an argument is
rendered the way `fmt` renders it; no call site passes surplus arguments. -/
def Sprintf.go : List Char → List String → List Char
  | [], _ => []
  | [c], _ => [c]
  | c :: d :: rest, args =>
    if c = '%' ∧ d = 's' then
      match args with
      | a :: args2 => a.data ++ Sprintf.go rest args2
      | [] => "%!s(MISSING)".data ++ Sprintf.go rest []
    else c :: Sprintf.go (d :: rest) args

/-- `fmt.Sprintf` for formats whose only verbs are `%s` applied to strings. -/
def Sprintf (format : String) (args : List String) : String :=
  ⟨Sprintf.go format.data args⟩

/-- `fmt.Errorf(...)`, by the text of the error it builds. -/
def Errorf (format : String) (args : List String) : error :=
  Sprintf format args

/-- The string `needle` occurs in `hay` as a contiguous substring. -/
def Contains (hay needle : String) : Prop := needle.data <:+: hay.data

instance (hay needle : String) : Decidable (Contains hay needle) :=
  inferInstanceAs (Decidable (needle.data <:+: hay.data))

/-- A `sync.WaitGroup`, by its counter. -/
structure WaitGroup where
  counter : Int := 0
  deriving DecidableEq, Repr

/-- `wg.Add(delta)`. -/
def WaitGroup.Add (wg : WaitGroup) (delta : Int) : WaitGroup :=
  { counter := wg.counter + delta }

/-- `wg.Done()`, which is `wg.Add(-1)`. -/
def WaitGroup.Done (wg : WaitGroup) : WaitGroup := wg.Add (-1)

/-- `wg.Wait()` returns exactly when the counter is zero. -/
def WaitGroup.released (wg : WaitGroup) : Bool := wg.counter == 0

/-- The signals named in `signal.Notify`. -/
inductive Signal
  | Interrupt
  | Kill
  | SIGTERM
  deriving DecidableEq, Repr

/-- A bound `net.Listener`: the network it was bound on and its `Addr()`. -/
structure NetListener where
  Network : String
  Addr : String
  deriving DecidableEq, Repr

/-! ## Configuration (`pkg/secretless/config`) and providers (`internal/pkg/provider`) -/

namespace config

/-- Modelled from the spec: the value of one field of a provider's `configuration` or
`credentials` map (the declaration in `pkg/secretless/config` is not among the sources):
either a literal value or a reference, by provider name and path. -/
inductive ValueSpec
  | literal (value : String)
  | reference (provider : String) (path : String)
  deriving DecidableEq, Repr

/-- Modelled from the spec: a map of field name to value spec (the declaration in
`pkg/secretless/config` is not among the sources). -/
abbrev Variables := List (String × ValueSpec)

/-- The fields of `config.Listener` that `proxy.go` reads. -/
structure Listener where
  Name : String
  Protocol : String := ""
  Address : String := ""
  Socket : String := ""
  deriving DecidableEq, Repr

/-- The fields of `config.Provider` that `proxy.go` reads; `Type_` is the field `Type`. -/
structure Provider where
  Name : String
  Type_ : String := ""
  Configuration : Variables := []
  Credentials : Variables := []
  deriving DecidableEq, Repr

/-- The fields of `config.Config` that `proxy.go` reads; the handler data is passed through
without being inspected, so its type `H` is a parameter. -/
structure Config (H : Type) where
  Providers : List Provider
  Listeners : List Listener
  Handlers : H

end config

namespace provider

/-- The interface `provider.Provider`: `Name()` and `Value(path)`. -/
structure Provider where
  Name : String
  Value : String → Except error Bytes

end provider

/-- A map of resolved values, as returned through `*map[string]string`. -/
abbrev Values := List (String × String)

/-- The collaborators of `proxy.go` whose code is in other packages, and the operating
system's answer to a bind. `netListen bound network address` is the result of
`net.Listen(network, address)` when `bound` are the sockets this run has bound so far. -/
structure Env where
  Resolve : List provider.Provider → config.Variables → Except error Values
  NewConjurProvider : String → Values → Values → Except error provider.Provider
  netListen : List NetListener → String → String → Except error NetListener

/-! ## `proxy.go` -/

/-- The concrete type behind a `Listener` interface value. -/
inductive ListenerKind
  | pg
  | http
  | ssh
  | sshagent
  deriving DecidableEq, Repr

/-- A value of the interface `Listener`: one of `pg.Listener`, `http.Listener`,
`ssh.Listener`, `sshagent.Listener`, with the four fields the composite literal sets. -/
structure Listener (H : Type) where
  kind : ListenerKind
  Config : config.Listener
  Listener : NetListener
  Providers : List provider.Provider
  Handlers : H

/-- The goroutine `go func() { defer wg.Done(); listener.Listen() }()` started by
`Proxy.Listen`. Its `wg` is the variable it captures: the parameter `wg sync.WaitGroup` of
`Proxy.Listen`, which Go initialises with a copy of the caller's argument. -/
structure ListenerTask (H : Type) where
  wg : WaitGroup
  listener : Listener H

/-- The task after `listener.Listen()` has returned and the deferred `wg.Done()` has run,
on the wait group the closure captured. -/
def ListenerTask.finish {H : Type} (t : ListenerTask H) : ListenerTask H :=
  { t with wg := t.wg.Done }

/-- What the signal goroutine does. -/
inductive HandlerStep
  | logPrintf (format : String) (args : List String)
  | close (l : NetListener)
  | nilDereference
  | exit (status : Nat)
  deriving DecidableEq, Repr

/-- The body of the goroutine started in the unix branch of `Proxy.Listen`, once a signal
`sig` arrives on its channel; `l` is the variable `l` of `Proxy.Listen`, `none` for nil. -/
def signalHandler (l : Option NetListener) (sig : String) : List HandlerStep :=
  match l with
  | some l =>
    [.logPrintf "Caught signal %s: shutting down." [sig], .close l, .exit 0]
  | none =>
    [.logPrintf "Caught signal %s: shutting down." [sig], .nilDereference]

/-- A call made by `loadProvider` to another package. -/
inductive Call
  | Resolve (providers : List provider.Provider) (spec : config.Variables)
  | NewConjurProvider (name : String) (configuration credentials : Values)

/-- An observable effect of `Proxy.Run`. -/
inductive Effect (H : Type)
  | call (c : Call)
  | logPrintf (format : String) (args : List String)
  | netListen (network address : String) (result : Except error NetListener)
  | signalNotify (signals : List Signal)
  | goSignalHandler (l : Option NetListener)
  | goListen (task : ListenerTask H)

/-- The ways an execution ends before its function returns. -/
inductive Abort
  | panic (msg : String)
  | fatal (msg : String)
  deriving DecidableEq, Repr

/-- The type `Proxy`. -/
structure Proxy (H : Type) where
  Config : config.Config H
  Providers : List provider.Provider := []

/-- What one call of `loadProvider` did and returned. -/
structure LoadResult where
  calls : List Call
  result : Except error provider.Provider

/-- The function `loadProvider`. -/
def loadProvider (env : Env) (providerConfig : config.Provider) : LoadResult :=
  let pt := if providerConfig.Type_ = "" then providerConfig.Name else providerConfig.Type_
  if pt = "conjur" then
    match env.Resolve [] providerConfig.Configuration with
    | .error err => ⟨[.Resolve [] providerConfig.Configuration], .error err⟩
    | .ok configuration =>
      match env.Resolve [] providerConfig.Credentials with
      | .error err =>
        ⟨[.Resolve [] providerConfig.Configuration, .Resolve [] providerConfig.Credentials],
          .error err⟩
      | .ok credentials =>
        ⟨[.Resolve [] providerConfig.Configuration, .Resolve [] providerConfig.Credentials,
            .NewConjurProvider providerConfig.Name configuration credentials],
          env.NewConjurProvider providerConfig.Name configuration credentials⟩
  else
    ⟨[], .error (Errorf "Unrecognized provider type '%s'" [pt])⟩

/-- What one call of `Proxy.Listen` did: its effects in order, how it ended, and the sockets
bound by the run after it. -/
structure ListenResult (H : Type) where
  trace : List (Effect H)
  abort : Option Abort
  bound : List NetListener

/-- The method `Proxy.Listen`; `bound` are the sockets bound by the run so far. -/
def Proxy.Listen {H : Type} (env : Env) (self : Proxy H) (bound : List NetListener)
    (listenerConfig : config.Listener) (wg : WaitGroup) : ListenResult H :=
  let r : Except error NetListener :=
    if listenerConfig.Address ≠ "" then
      env.netListen bound "tcp" listenerConfig.Address
    else
      env.netListen bound "unix" listenerConfig.Socket
  let bind : List (Effect H) :=
    if listenerConfig.Address ≠ "" then
      [.netListen "tcp" listenerConfig.Address r]
    else
      [.netListen "unix" listenerConfig.Socket r,
        .signalNotify [.Interrupt, .Kill, .SIGTERM],
        .goSignalHandler r.toOption]
  match r with
  | .ok l =>
    let log : Effect H :=
      .logPrintf "%s listener '%s' listening at: %s"
        [listenerConfig.Protocol, listenerConfig.Name, l.Addr]
    let protocol :=
      if listenerConfig.Protocol = "" then listenerConfig.Name else listenerConfig.Protocol
    let start (kind : ListenerKind) : ListenResult H :=
      { trace := bind ++ [log,
          .goListen ⟨wg, ⟨kind, listenerConfig, l, self.Providers, self.Config.Handlers⟩⟩]
        abort := none
        bound := bound ++ [l] }
    if protocol = "pg" then start .pg
    else if protocol = "http" then start .http
    else if protocol = "ssh" then start .ssh
    else if protocol = "ssh-agent" then start .sshagent
    else
      { trace := bind ++ [log]
        abort := some (.panic (Sprintf "Unrecognized protocol '%s' on listener '%s'"
          [protocol, listenerConfig.Name]))
        bound := bound ++ [l] }
  | .error err =>
    { trace := bind, abort := some (.fatal err), bound := bound }

/-- The first loop of `Proxy.Run`: the providers loaded so far are `loaded`. It yields the
effects, and either the panic message or the complete `self.Providers`. -/
def Proxy.Run.loadLoop {H : Type} (env : Env) :
    List config.Provider → List provider.Provider →
      List (Effect H) × Except String (List provider.Provider)
  | [], loaded => ([], .ok loaded)
  | providerConfig :: rest, loaded =>
    let r := loadProvider env providerConfig
    match r.result with
    | .error err =>
      (r.calls.map .call,
        .error (Sprintf "Unable to load provider '%s' : %s" [providerConfig.Name, err]))
    | .ok p =>
      let (tr, res) := Proxy.Run.loadLoop env rest (loaded ++ [p])
      (r.calls.map .call ++ .logPrintf "Loaded provider '%s'" [p.Name] :: tr, res)

/-- The second loop of `Proxy.Run`: one `self.Listen(config, wg)` per listener, each call
receiving the value of `wg`. -/
def Proxy.Run.listenLoop {H : Type} (env : Env) (self : Proxy H) (wg : WaitGroup) :
    List config.Listener → List NetListener → List (Effect H) × Option Abort
  | [], _ => ([], none)
  | listenerConfig :: rest, bound =>
    let r := self.Listen env bound listenerConfig wg
    match r.abort with
    | some a => (r.trace, some a)
    | none =>
      let (tr, res) := Proxy.Run.listenLoop env self wg rest r.bound
      (r.trace ++ tr, res)

/-- How `Proxy.Run` ends: by a panic, by `log.Fatal`, or at `wg.Wait()` on its wait group. -/
inductive Outcome
  | panic (msg : String)
  | fatal (msg : String)
  | wait (wg : WaitGroup)
  deriving DecidableEq, Repr

/-- What `Proxy.Run` did: its effects in order and how it ended. -/
structure RunResult (H : Type) where
  trace : List (Effect H)
  outcome : Outcome

/-- The method `Proxy.Run`. -/
def Proxy.Run {H : Type} (env : Env) (self : Proxy H) : RunResult H :=
  match Proxy.Run.loadLoop env self.Config.Providers [] with
  | (tr, .error msg) => { trace := tr, outcome := .panic msg }
  | (tr, .ok providers) =>
    let self : Proxy H := { self with Providers := providers }
    let wg : WaitGroup := (WaitGroup.mk 0).Add self.Config.Listeners.length
    match Proxy.Run.listenLoop env self wg self.Config.Listeners [] with
    | (tr2, some (.panic msg)) => { trace := tr ++ tr2, outcome := .panic msg }
    | (tr2, some (.fatal msg)) => { trace := tr ++ tr2, outcome := .fatal msg }
    | (tr2, none) => { trace := tr ++ tr2, outcome := .wait wg }

/-! ### Reading a trace -/

/-- The effect is a socket bind (an attempt, successful or not). -/
def Effect.isBind {H : Type} : Effect H → Bool
  | .netListen _ _ _ => true
  | _ => false

/-- The listener task the effect starts, if it starts one. -/
def Effect.task? {H : Type} : Effect H → Option (ListenerTask H)
  | .goListen t => some t
  | _ => none

/-- The effect starts a listener task. -/
def Effect.isListenerStart {H : Type} (e : Effect H) : Bool := e.task?.isSome

/-- The effect registers the signal handler or starts its goroutine. -/
def Effect.isSignalSetup {H : Type} : Effect H → Bool
  | .signalNotify _ => true
  | .goSignalHandler _ => true
  | _ => false

/-- The `(network, address)` of the bind, if the effect is one. -/
def Effect.bind? {H : Type} : Effect H → Option (String × String)
  | .netListen network address _ => some (network, address)
  | _ => none

/-- The format and arguments of the `log.Printf` call, if the effect is one. -/
def Effect.log? {H : Type} : Effect H → Option (String × List String)
  | .logPrintf format args => some (format, args)
  | _ => none

/-- The listener tasks a trace starts, in order. -/
def startedTasks {H : Type} (trace : List (Effect H)) : List (ListenerTask H) :=
  trace.filterMap Effect.task?

/-- The state of the process once `Proxy.Run` is at `wg.Wait()`: the wait group variable of
`Run`, and the started listener tasks, each with the wait group variable it captured. -/
structure Supervision (H : Type) where
  wg : WaitGroup
  tasks : List (ListenerTask H)

/-- The supervision state a run reaches, if it reaches `wg.Wait()`. -/
def RunResult.supervision {H : Type} (r : RunResult H) : Option (Supervision H) :=
  match r.outcome with
  | .wait wg => some ⟨wg, startedTasks r.trace⟩
  | _ => none

/-- Every started listener task returns from `listener.Listen()` and runs its deferred
`wg.Done()`. Each task decrements the variable it captured, the by-value parameter of its
own `Proxy.Listen` call; the variable of `Run` is none of them. -/
def Supervision.finishAll {H : Type} (s : Supervision H) : Supervision H :=
  { s with tasks := s.tasks.map ListenerTask.finish }

/-- The `wg.Wait()` of `Proxy.Run` returns. -/
def Supervision.released {H : Type} (s : Supervision H) : Bool := s.wg.released

/-- The effective protocol of a listener: its `Protocol`, or its `Name` when that is empty. -/
def effectiveProtocol (l : config.Listener) : String :=
  if l.Protocol = "" then l.Name else l.Protocol

/-- The effective type of a provider: its `Type`, or its `Name` when that is empty. -/
def providerType (p : config.Provider) : String :=
  if p.Type_ = "" then p.Name else p.Type_

/-- The protocol identifiers `Proxy.Listen` has a case for. -/
def supportedProtocols : List String := ["pg", "http", "ssh", "ssh-agent"]

/-! ### The parts of `Proxy.Listen`, for stating facts about it -/

/-- The result of the single `net.Listen` call of `Proxy.Listen`. -/
def bindResult (env : Env) (bound : List NetListener) (lc : config.Listener) :
    Except error NetListener :=
  if lc.Address ≠ "" then env.netListen bound "tcp" lc.Address
  else env.netListen bound "unix" lc.Socket

/-- The effects of `Proxy.Listen` up to the test `err == nil`. -/
def bindEffects {H : Type} (env : Env) (bound : List NetListener) (lc : config.Listener) :
    List (Effect H) :=
  if lc.Address ≠ "" then [.netListen "tcp" lc.Address (bindResult env bound lc)]
  else
    [.netListen "unix" lc.Socket (bindResult env bound lc),
      .signalNotify [.Interrupt, .Kill, .SIGTERM],
      .goSignalHandler (bindResult env bound lc).toOption]

/-- The listener kind selected for a protocol identifier, if it has a case. -/
def dispatch (protocol : String) : Option ListenerKind :=
  if protocol = "pg" then some .pg
  else if protocol = "http" then some .http
  else if protocol = "ssh" then some .ssh
  else if protocol = "ssh-agent" then some .sshagent
  else none

/-! ## `run.go` (package `command` of Summon) -/

namespace secretsyml

/-- The tags of a secret spec in the Summon library `secretsyml`. -/
inductive YamlTag
  | File
  | Var
  | Literal
  deriving DecidableEq, Repr

/-- The type `secretsyml.SecretSpec` of the Summon library: tags and a path. -/
structure SecretSpec where
  Tags : List YamlTag := []
  Path : String := ""
  deriving DecidableEq, Repr

/-- The method `IsFile`: the spec carries the tag `File`. -/
def SecretSpec.IsFile (s : SecretSpec) : Bool := s.Tags.contains .File

/-- The method `IsVar`: the spec carries the tag `Var`. -/
def SecretSpec.IsVar (s : SecretSpec) : Bool := s.Tags.contains .Var

/-- The type `secretsyml.SecretsMap`, a `map[string]SecretSpec`. -/
abbrev SecretsMap := List (String × SecretSpec)

end secretsyml

namespace Summon

open secretsyml

/-- The assignment `m[key] = value` on a Go map. -/
def mapSet {α : Type} : List (String × α) → String → α → List (String × α)
  | [], key, value => [(key, value)]
  | (k, v) :: rest, key, value =>
    if k = key then (k, value) :: rest else (k, v) :: mapSet rest key value

/-- The index expression `secretsMap[key]`: the zero value when the key is absent. -/
def mapGet (m : SecretsMap) (key : String) : SecretSpec :=
  (m.lookup key).getD {}

/-- The function `findProvider`. -/
def findProvider (providers : List provider.Provider) (_secretSpec : SecretSpec) :
    Except error provider.Provider :=
  match providers with
  | [p] => .ok p
  | _ => .error (Errorf "findProviders is not implemented for multiple providers" [])

/-- The loop of `resolveVariables`; `result` is the map built so far. It yields the named
results `(result, err)`. -/
def resolveVariables.loop (providers : List provider.Provider) :
    SecretsMap → Values → Values × Option error
  | [], result => (result, none)
  | (key, spec) :: rest, result =>
    if spec.IsVar then
      match findProvider providers spec with
      | .error err => (result, some err)
      | .ok provider =>
        match provider.Value spec.Path with
        | .error err => (result, some err)
        | .ok valueBytes =>
          resolveVariables.loop providers rest (mapSet result key valueBytes.string)
    else
      resolveVariables.loop providers rest (mapSet result key spec.Path)

/-- The function `resolveVariables`, returning `(result, err)`. -/
def resolveVariables (providers : List provider.Provider) (secretsMap : SecretsMap) :
    Values × Option error :=
  resolveVariables.loop providers secretsMap []

/-- The function `formatForEnv`. The temp factory is not among the sources: its state has
type `T` and `push` is its method `Push`, returning the file name and the new state. -/
def formatForEnv {T : Type} (push : T → String → String × T) (key value : String)
    (spec : SecretSpec) (tempFactory : T) : String × T :=
  if spec.IsFile then
    let (fname, tempFactory) := push tempFactory value
    (Sprintf "%s=%s" [key, fname], tempFactory)
  else
    (Sprintf "%s=%s" [key, value], tempFactory)

/-- The loop of `buildEnvironment`: one `append` per entry of `secrets`. -/
def buildEnvironment.loop {T : Type} (push : T → String → String × T)
    (secretsMap : SecretsMap) : Values → List String → T → List String × T
  | [], env, tempFactory => (env, tempFactory)
  | (key, value) :: rest, env, tempFactory =>
    let (envvar, tempFactory) := formatForEnv push key value (mapGet secretsMap key) tempFactory
    buildEnvironment.loop push secretsMap rest (env ++ [envvar]) tempFactory

/-- The function `buildEnvironment`, returning `(env, err)` and the state of the temp
factory. `make([]string, len(secrets))` is a slice of `len(secrets)` empty strings. -/
def buildEnvironment {T : Type} (push : T → String → String × T) (secrets : Values)
    (secretsMap : SecretsMap) (tempFactory : T) : (List String × Option error) × T :=
  let env : List String := List.replicate secrets.length ""
  let (env, tempFactory) := buildEnvironment.loop push secretsMap secrets env tempFactory
  ((env, none), tempFactory)

/-- For a provider `p`, the value `resolveVariables` stores for a spec when `p.Value`
succeeds on its path. -/
def resolvedValue (p : provider.Provider) (spec : SecretSpec) : String :=
  if spec.IsVar then
    match p.Value spec.Path with
    | .ok valueBytes => valueBytes.string
    | .error _ => ""
  else spec.Path

end Summon

/-! ### Fixtures: a concrete environment -/

/-- Modelled from the spec: `variable.Resolve` (package `internal/app/secretless/variable`
is not among the sources). A literal is used verbatim; a reference is looked up in the
provider with the matching name and fails when there is none or when its `Value` fails.
The text of the missing-provider error is not fixed by the spec beyond naming the
provider. -/
def Resolve (providers : List provider.Provider) : config.Variables → Except error Values
  | [] => .ok []
  | (name, .literal value) :: rest =>
    match Resolve providers rest with
    | .ok values => .ok ((name, value) :: values)
    | .error err => .error err
  | (name, .reference prov path) :: rest =>
    match providers.find? (fun p => p.Name == prov) with
    | none => .error (Errorf "provider '%s' not found" [prov])
    | some p =>
      match p.Value path with
      | .error err => .error err
      | .ok bytes =>
        match Resolve providers rest with
        | .ok values => .ok ((name, bytes.string) :: values)
        | .error err => .error err

/-- A provider constructor for the examples: the provider answers every path with its
own name followed by the path. -/
def sampleNewConjurProvider (name : String) (_configuration _credentials : Values) :
    Except error provider.Provider :=
  .ok { Name := name, Value := fun path => .ok ⟨name ++ ":" ++ path⟩ }

/-- An operating system for the examples: a bind fails on an empty address and on an
address this run has already bound, and succeeds otherwise. -/
def sampleNetListen (bound : List NetListener) (network address : String) :
    Except error NetListener :=
  if address = "" then .error "listen: missing address"
  else if (⟨network, address⟩ : NetListener) ∈ bound then
    .error "bind: address already in use"
  else .ok ⟨network, address⟩

/-- The environment of the examples. -/
def sampleEnv : Env :=
  { Resolve := Resolve
    NewConjurProvider := sampleNewConjurProvider
    netListen := sampleNetListen }

/-- A provider whose type has no case in `loadProvider` and differs from its name. -/
def vaultProvider : config.Provider :=
  { Name := "vault", Type_ := "nonexistent" }

/-- A provider of the supported type whose credentials refer to another provider. -/
def conjurProvider : config.Provider :=
  { Name := "conjur"
    Configuration := [("url", .literal "https://conjur.example")]
    Credentials := [("apikey", .reference "vault" "conjur/api-key")] }

/-- A provider for the examples: it knows the path `"secret/y"`. -/
def sampleSecretProvider : provider.Provider :=
  { Name := "p"
    Value := fun path =>
      if path = "secret/y" then .ok ⟨"Z"⟩ else .error ("no such secret: " ++ path) }

/-- A secrets map with a literal and a variable. -/
def sampleSecretsMap : secretsyml.SecretsMap :=
  [("a", { Tags := [.Literal], Path := "x" }), ("b", { Tags := [.Var], Path := "secret/y" })]

/-- A temp factory for the examples: its state is the list of contents pushed so far. -/
def samplePush (tempFactory : List String) (value : String) : String × List String :=
  ("/tmp/summon/" ++ toString tempFactory.length, tempFactory ++ [value])

/-- A secrets map with a variable the example provider does not know. -/
def missingSecretsMap : secretsyml.SecretsMap :=
  [("a", { Tags := [.Literal], Path := "x" }), ("c", { Tags := [.Var], Path := "secret/none" })]

/-- A listener on a unix socket that also sets `Protocol`. -/
def sockListener : config.Listener :=
  { Name := "db", Protocol := "pg", Socket := "/sock/.s.PGSQL.5432" }

/-- A listener with no `Protocol`, named `"pg"`, on a network address. -/
def pgListener : config.Listener :=
  { Name := "pg", Address := "0.0.0.0:5432" }

/-- A proxy whose only provider has an unsupported type, with one listener. -/
def vaultProxy : Proxy Unit :=
  { Config :=
      { Providers := [vaultProvider]
        Listeners := [pgListener]
        Handlers := () } }

/-- A proxy with no providers and one `pg` listener named by its `Name`. -/
def pgProxy : Proxy Unit :=
  { Config :=
      { Providers := []
        Listeners := [pgListener]
        Handlers := () } }

/-- A proxy with no providers, a `pg` listener named by its `Name`, and a listener whose
protocol has no case in `Proxy.Listen`. -/
def pigeonProxy : Proxy Unit :=
  { Config :=
      { Providers := []
        Listeners :=
          [pgListener,
           { Name := "x", Protocol := "carrierpigeon", Address := "0.0.0.0:9999" }]
        Handlers := () } }

/-! ## Facts about `Proxy.Listen` -/

section ListenFacts

variable {H : Type}

theorem dispatch_eq_none_iff (protocol : String) :
    dispatch protocol = none ↔ protocol ∉ supportedProtocols := by
  unfold dispatch supportedProtocols
  by_cases h1 : protocol = "pg"
  · simp [h1]
  by_cases h2 : protocol = "http"
  · simp [h2]
  by_cases h3 : protocol = "ssh"
  · simp [h3]
  by_cases h4 : protocol = "ssh-agent"
  · simp [h4]
  simp [h1, h2, h3, h4]

theorem Listen_of_error (env : Env) (self : Proxy H) (bound : List NetListener)
    (lc : config.Listener) (wg : WaitGroup) (err : error)
    (h : bindResult env bound lc = .error err) :
    self.Listen env bound lc wg =
      { trace := bindEffects env bound lc, abort := some (.fatal err), bound := bound } := by
  unfold bindResult at h
  unfold Proxy.Listen bindEffects bindResult
  by_cases ha : lc.Address = "" <;> simp [ha] at h ⊢ <;> simp [h]

theorem Listen_of_ok_some (env : Env) (self : Proxy H) (bound : List NetListener)
    (lc : config.Listener) (wg : WaitGroup) (l : NetListener) (kind : ListenerKind)
    (h : bindResult env bound lc = .ok l) (hk : dispatch (effectiveProtocol lc) = some kind) :
    self.Listen env bound lc wg =
      { trace := bindEffects env bound lc ++
          [.logPrintf "%s listener '%s' listening at: %s" [lc.Protocol, lc.Name, l.Addr],
           .goListen ⟨wg, ⟨kind, lc, l, self.Providers, self.Config.Handlers⟩⟩]
        abort := none
        bound := bound ++ [l] } := by
  unfold bindResult at h
  unfold dispatch effectiveProtocol at hk
  unfold Proxy.Listen bindEffects bindResult
  by_cases ha : lc.Address = "" <;> simp [ha] at h ⊢ <;> simp [h] <;>
    split_ifs at hk ⊢ <;> simp_all

theorem Listen_of_ok_none (env : Env) (self : Proxy H) (bound : List NetListener)
    (lc : config.Listener) (wg : WaitGroup) (l : NetListener)
    (h : bindResult env bound lc = .ok l) (hk : dispatch (effectiveProtocol lc) = none) :
    self.Listen env bound lc wg =
      { trace := bindEffects env bound lc ++
          [.logPrintf "%s listener '%s' listening at: %s" [lc.Protocol, lc.Name, l.Addr]]
        abort := some (.panic (Sprintf "Unrecognized protocol '%s' on listener '%s'"
          [effectiveProtocol lc, lc.Name]))
        bound := bound ++ [l] } := by
  unfold bindResult at h
  unfold dispatch effectiveProtocol at hk
  unfold Proxy.Listen bindEffects bindResult effectiveProtocol
  by_cases ha : lc.Address = "" <;> simp [ha] at h ⊢ <;> simp [h] <;>
    split_ifs at hk ⊢ <;> simp_all

theorem startedTasks_bindEffects (env : Env) (bound : List NetListener)
    (lc : config.Listener) : startedTasks (bindEffects env bound lc : List (Effect H)) = [] := by
  unfold bindEffects startedTasks
  split_ifs <;> simp [Effect.task?]

theorem mem_bindEffects_ok (env : Env) (bound : List NetListener) (lc : config.Listener)
    (network address : String) (res : Except error NetListener)
    (h : Effect.netListen network address res ∈ (bindEffects env bound lc : List (Effect H))) :
    bindResult env bound lc = res := by
  unfold bindEffects at h
  split_ifs at h <;> simp at h <;> exact h.2.2.symm

/-- Every bind recorded by `Proxy.Listen` carries the result of its `net.Listen` call. -/
theorem Listen_bind_result (env : Env) (self : Proxy H) (bound : List NetListener)
    (lc : config.Listener) (wg : WaitGroup) (network address : String)
    (res : Except error NetListener)
    (h : Effect.netListen network address res ∈ (self.Listen env bound lc wg).trace) :
    bindResult env bound lc = res := by
  cases hr : bindResult env bound lc with
  | error err =>
    rw [Listen_of_error env self bound lc wg err hr] at h
    rw [← hr]; exact mem_bindEffects_ok env bound lc network address res h
  | ok l =>
    rw [← hr]
    cases hk : dispatch (effectiveProtocol lc) with
    | none =>
      rw [Listen_of_ok_none env self bound lc wg l hr hk] at h
      simp at h
      exact mem_bindEffects_ok env bound lc network address res h
    | some kind =>
      rw [Listen_of_ok_some env self bound lc wg l kind hr hk] at h
      simp at h
      exact mem_bindEffects_ok env bound lc network address res h

theorem bindEffects_tcp (env : Env) (bound : List NetListener) (lc : config.Listener)
    (ha : lc.Address ≠ "") :
    (bindEffects env bound lc : List (Effect H)) =
      [.netListen "tcp" lc.Address (env.netListen bound "tcp" lc.Address)] := by
  simp [bindEffects, bindResult, ha]

theorem bindEffects_unix (env : Env) (bound : List NetListener) (lc : config.Listener)
    (ha : lc.Address = "") :
    (bindEffects env bound lc : List (Effect H)) =
      [.netListen "unix" lc.Socket (env.netListen bound "unix" lc.Socket),
        .signalNotify [.Interrupt, .Kill, .SIGTERM],
        .goSignalHandler (env.netListen bound "unix" lc.Socket).toOption] := by
  simp [bindEffects, bindResult, ha]

/-- The trace of `Proxy.Listen` is the bind effects followed by effects that are neither
binds nor signal set-up. -/
theorem Listen_trace_shape (env : Env) (self : Proxy H) (bound : List NetListener)
    (lc : config.Listener) (wg : WaitGroup) :
    ∃ tail : List (Effect H),
      (self.Listen env bound lc wg).trace = bindEffects env bound lc ++ tail ∧
      tail.filterMap Effect.bind? = [] ∧ tail.filter Effect.isSignalSetup = [] := by
  cases hr : bindResult env bound lc with
  | error err =>
    exact ⟨[], by rw [Listen_of_error env self bound lc wg err hr]; simp⟩
  | ok l =>
    cases hk : dispatch (effectiveProtocol lc) with
    | none =>
      exact ⟨_, by rw [Listen_of_ok_none env self bound lc wg l hr hk],
        by simp [Effect.bind?], by simp [Effect.isSignalSetup]⟩
    | some kind =>
      exact ⟨_, by rw [Listen_of_ok_some env self bound lc wg l kind hr hk],
        by simp [Effect.bind?], by simp [Effect.isSignalSetup]⟩

theorem dispatch_isSome_iff (protocol : String) :
    (dispatch protocol).isSome = true ↔ protocol ∈ supportedProtocols := by
  have h := dispatch_eq_none_iff protocol
  cases hd : dispatch protocol with
  | none => simpa [hd] using h
  | some kind =>
    rw [hd] at h
    simp only [Option.isSome_some, true_iff]
    by_contra hn
    exact absurd (h.2 hn) (by simp)

/-- A call of `Proxy.Listen` that ends normally has started exactly one task, holding the
wait group value and the listener configuration it was given, and the effective protocol of
that configuration is a supported one. -/
theorem Listen_normal (env : Env) (self : Proxy H) (bound : List NetListener)
    (lc : config.Listener) (wg : WaitGroup)
    (h : (self.Listen env bound lc wg).abort = none) :
    effectiveProtocol lc ∈ supportedProtocols ∧
    ∃ t, startedTasks (self.Listen env bound lc wg).trace = [t] ∧
      t.wg = wg ∧ t.listener.Config = lc := by
  cases hr : bindResult env bound lc with
  | error err => rw [Listen_of_error env self bound lc wg err hr] at h; simp at h
  | ok l =>
    cases hk : dispatch (effectiveProtocol lc) with
    | none => rw [Listen_of_ok_none env self bound lc wg l hr hk] at h; simp at h
    | some kind =>
      refine ⟨(dispatch_isSome_iff _).1 (by rw [hk]; rfl), ?_⟩
      rw [Listen_of_ok_some env self bound lc wg l kind hr hk]
      have h0 := startedTasks_bindEffects (H := H) env bound lc
      unfold startedTasks at h0 ⊢
      exact ⟨⟨wg, ⟨kind, lc, l, self.Providers, self.Config.Handlers⟩⟩,
        by simp [List.filterMap_append, h0, Effect.task?], rfl, rfl⟩

/-- A call of `Proxy.Listen` that ends the process has started no task. -/
theorem Listen_aborted (env : Env) (self : Proxy H) (bound : List NetListener)
    (lc : config.Listener) (wg : WaitGroup) (a : Abort)
    (h : (self.Listen env bound lc wg).abort = some a) :
    startedTasks (self.Listen env bound lc wg).trace = [] := by
  have h0 := startedTasks_bindEffects (H := H) env bound lc
  cases hr : bindResult env bound lc with
  | error err => rw [Listen_of_error env self bound lc wg err hr]; exact h0
  | ok l =>
    cases hk : dispatch (effectiveProtocol lc) with
    | none =>
      rw [Listen_of_ok_none env self bound lc wg l hr hk]
      unfold startedTasks at h0 ⊢
      simp [List.filterMap_append, h0, Effect.task?]
    | some kind => rw [Listen_of_ok_some env self bound lc wg l kind hr hk] at h; simp at h

/-- No effect of `Proxy.Listen` is a call to a collaborator of `loadProvider`. -/
theorem Listen_no_call (env : Env) (self : Proxy H) (bound : List NetListener)
    (lc : config.Listener) (wg : WaitGroup) (c : Call) :
    Effect.call c ∉ (self.Listen env bound lc wg).trace := by
  have hb : Effect.call c ∉ (bindEffects env bound lc : List (Effect H)) := by
    unfold bindEffects; split_ifs <;> simp
  cases hr : bindResult env bound lc with
  | error err => rw [Listen_of_error env self bound lc wg err hr]; exact hb
  | ok l =>
    cases hk : dispatch (effectiveProtocol lc) with
    | none => rw [Listen_of_ok_none env self bound lc wg l hr hk]; simp [hb]
    | some kind => rw [Listen_of_ok_some env self bound lc wg l kind hr hk]; simp [hb]

theorem mem_startedTasks (trace : List (Effect H)) (t : ListenerTask H) :
    t ∈ startedTasks trace ↔ Effect.goListen t ∈ trace := by
  unfold startedTasks
  rw [List.mem_filterMap]
  constructor
  · rintro ⟨e, he, het⟩
    cases e <;> simp [Effect.task?] at het
    subst het
    exact he
  · intro hmem
    exact ⟨_, hmem, rfl⟩

theorem startedTasks_append (a b : List (Effect H)) :
    startedTasks (a ++ b) = startedTasks a ++ startedTasks b := by
  simp [startedTasks, List.filterMap_append]

theorem listenLoop_cons_aborted (env : Env) (self : Proxy H) (wg : WaitGroup)
    (lc : config.Listener) (rest : List config.Listener) (bound : List NetListener)
    (a : Abort) (h : (self.Listen env bound lc wg).abort = some a) :
    Proxy.Run.listenLoop env self wg (lc :: rest) bound =
      ((self.Listen env bound lc wg).trace, some a) := by
  simp [Proxy.Run.listenLoop, h]

theorem listenLoop_cons_normal (env : Env) (self : Proxy H) (wg : WaitGroup)
    (lc : config.Listener) (rest : List config.Listener) (bound : List NetListener)
    (h : (self.Listen env bound lc wg).abort = none) :
    Proxy.Run.listenLoop env self wg (lc :: rest) bound =
      ((self.Listen env bound lc wg).trace ++
          (Proxy.Run.listenLoop env self wg rest (self.Listen env bound lc wg).bound).1,
        (Proxy.Run.listenLoop env self wg rest (self.Listen env bound lc wg).bound).2) := by
  simp [Proxy.Run.listenLoop, h]

/-- No effect of the listener loop is a call to a collaborator of `loadProvider`. -/
theorem listenLoop_no_call (env : Env) (self : Proxy H) (wg : WaitGroup)
    (ls : List config.Listener) (bound : List NetListener) (c : Call) :
    Effect.call c ∉ (Proxy.Run.listenLoop env self wg ls bound).1 := by
  induction ls generalizing bound with
  | nil => simp [Proxy.Run.listenLoop]
  | cons lc rest ih =>
    cases ha : (self.Listen env bound lc wg).abort with
    | some a =>
      rw [listenLoop_cons_aborted env self wg lc rest bound a ha]
      exact Listen_no_call env self bound lc wg c
    | none =>
      rw [listenLoop_cons_normal env self wg lc rest bound ha]
      simp only [List.mem_append, not_or]
      exact ⟨Listen_no_call env self bound lc wg c, ih _⟩

/-- The listener loop ends the process when some entry has an unsupported protocol. -/
theorem listenLoop_unsupported (env : Env) (self : Proxy H) (wg : WaitGroup)
    (ls : List config.Listener) (bound : List NetListener)
    (h : ∃ lc ∈ ls, effectiveProtocol lc ∉ supportedProtocols) :
    (Proxy.Run.listenLoop env self wg ls bound).2 ≠ none := by
  induction ls generalizing bound with
  | nil => simp at h
  | cons lc rest ih =>
    cases ha : (self.Listen env bound lc wg).abort with
    | some a => rw [listenLoop_cons_aborted env self wg lc rest bound a ha]; simp
    | none =>
      rw [listenLoop_cons_normal env self wg lc rest bound ha]
      have hsup := (Listen_normal env self bound lc wg ha).1
      obtain ⟨bad, hmem, hbad⟩ := h
      rcases List.mem_cons.1 hmem with rfl | hmem
      · exact absurd hsup hbad
      · exact ih _ ⟨bad, hmem, hbad⟩

/-- The tasks started by the listener loop belong, in order, to a leading segment of the
entries that precede the first one with an unsupported protocol. -/
theorem listenLoop_started (env : Env) (self : Proxy H) (wg : WaitGroup)
    (ls : List config.Listener) (bound : List NetListener) :
    (startedTasks (Proxy.Run.listenLoop env self wg ls bound).1).map
        (fun t => t.listener.Config) <+:
      ls.takeWhile (fun lc => decide (effectiveProtocol lc ∈ supportedProtocols)) := by
  induction ls generalizing bound with
  | nil => simp [Proxy.Run.listenLoop, startedTasks]
  | cons lc rest ih =>
    cases ha : (self.Listen env bound lc wg).abort with
    | some a =>
      rw [listenLoop_cons_aborted env self wg lc rest bound a ha]
      simp only [Listen_aborted env self bound lc wg a ha, List.map_nil]
      exact List.nil_prefix
    | none =>
      rw [listenLoop_cons_normal env self wg lc rest bound ha]
      obtain ⟨hsup, t, ht, _, hcfg⟩ := Listen_normal env self bound lc wg ha
      simp only [startedTasks_append, ht, List.map_append, List.map_cons, List.map_nil,
        hcfg, List.singleton_append]
      rw [List.takeWhile_cons_of_pos (by simpa using hsup)]
      exact (List.prefix_cons_inj lc).2 (ih _)

/-- When the listener loop ends normally, it has started one task per entry, each holding
the value of the wait group that was passed to `Proxy.Listen`. -/
theorem listenLoop_normal (env : Env) (self : Proxy H) (wg : WaitGroup)
    (ls : List config.Listener) (bound : List NetListener)
    (h : (Proxy.Run.listenLoop env self wg ls bound).2 = none) :
    (startedTasks (Proxy.Run.listenLoop env self wg ls bound).1).map (fun t => t.wg) =
      List.replicate ls.length wg := by
  induction ls generalizing bound with
  | nil => simp [Proxy.Run.listenLoop, startedTasks]
  | cons lc rest ih =>
    cases ha : (self.Listen env bound lc wg).abort with
    | some a => rw [listenLoop_cons_aborted env self wg lc rest bound a ha] at h; simp at h
    | none =>
      rw [listenLoop_cons_normal env self wg lc rest bound ha] at h ⊢
      obtain ⟨_, t, ht, hwg, _⟩ := Listen_normal env self bound lc wg ha
      simp only [startedTasks_append, ht, List.map_append, List.map_cons, List.map_nil,
        hwg, List.singleton_append, List.length_cons, List.replicate_succ]
      rw [ih _ h]

/-- A call of `Proxy.Listen` that ends normally: its bind succeeded, its protocol has a
case, its socket joins the bound ones and the one task it started is built from them. -/
theorem Listen_normal_form (env : Env) (self : Proxy H) (bound : List NetListener)
    (lc : config.Listener) (wg : WaitGroup)
    (h : (self.Listen env bound lc wg).abort = none) :
    ∃ l kind, bindResult env bound lc = .ok l ∧
      dispatch (effectiveProtocol lc) = some kind ∧
      (self.Listen env bound lc wg).bound = bound ++ [l] ∧
      startedTasks (self.Listen env bound lc wg).trace =
        [⟨wg, ⟨kind, lc, l, self.Providers, self.Config.Handlers⟩⟩] := by
  cases hr : bindResult env bound lc with
  | error err => rw [Listen_of_error env self bound lc wg err hr] at h; simp at h
  | ok l =>
    cases hk : dispatch (effectiveProtocol lc) with
    | none => rw [Listen_of_ok_none env self bound lc wg l hr hk] at h; simp at h
    | some kind =>
      refine ⟨l, kind, rfl, rfl, ?_, ?_⟩
      · rw [Listen_of_ok_some env self bound lc wg l kind hr hk]
      · rw [Listen_of_ok_some env self bound lc wg l kind hr hk]
        have h0 := startedTasks_bindEffects (H := H) env bound lc
        unfold startedTasks at h0 ⊢
        simp [List.filterMap_append, h0, Effect.task?]

/-- A call of `Proxy.Listen` that ends the process: either its bind failed and it ends in
`log.Fatal` with the bind error, or its bind succeeded, its protocol has no case and it
panics. -/
theorem Listen_abort_form (env : Env) (self : Proxy H) (bound : List NetListener)
    (lc : config.Listener) (wg : WaitGroup) (a : Abort)
    (h : (self.Listen env bound lc wg).abort = some a) :
    (∃ err, bindResult env bound lc = .error err ∧ a = .fatal err) ∨
    (∃ l, bindResult env bound lc = .ok l ∧
      effectiveProtocol lc ∉ supportedProtocols ∧
      a = .panic (Sprintf "Unrecognized protocol '%s' on listener '%s'"
        [effectiveProtocol lc, lc.Name])) := by
  cases hr : bindResult env bound lc with
  | error err =>
    rw [Listen_of_error env self bound lc wg err hr] at h
    simp only [Option.some.injEq] at h
    exact Or.inl ⟨err, rfl, h.symm⟩
  | ok l =>
    cases hk : dispatch (effectiveProtocol lc) with
    | none =>
      rw [Listen_of_ok_none env self bound lc wg l hr hk] at h
      simp only [Option.some.injEq] at h
      exact Or.inr ⟨l, rfl, (dispatch_eq_none_iff _).1 hk, h.symm⟩
    | some kind => rw [Listen_of_ok_some env self bound lc wg l kind hr hk] at h; simp at h

/-- When the listener loop ends the process, it does so at the first entry whose bind
fails or whose protocol has no case, given the sockets of the tasks started before it; the
tasks started are exactly those of the entries before that one, each on the socket its
bind returned. -/
theorem listenLoop_stop (env : Env) (self : Proxy H) (wg : WaitGroup)
    (ls : List config.Listener) (bound : List NetListener) (a : Abort)
    (h : (Proxy.Run.listenLoop env self wg ls bound).2 = some a) :
    ∃ pre lc post, ls = pre ++ lc :: post ∧
      (startedTasks (Proxy.Run.listenLoop env self wg ls bound).1).map
        (fun t => t.listener.Config) = pre ∧
      (∀ x t y, startedTasks (Proxy.Run.listenLoop env self wg ls bound).1 = x ++ t :: y →
        effectiveProtocol t.listener.Config ∈ supportedProtocols ∧
        bindResult env (bound ++ x.map (fun t => t.listener.Listener)) t.listener.Config =
          .ok t.listener.Listener ∧
        t.wg = wg) ∧
      ((∃ err,
          bindResult env
            (bound ++ (startedTasks (Proxy.Run.listenLoop env self wg ls bound).1).map
              (fun t => t.listener.Listener)) lc = .error err ∧
          a = .fatal err) ∨
        (∃ l,
          bindResult env
            (bound ++ (startedTasks (Proxy.Run.listenLoop env self wg ls bound).1).map
              (fun t => t.listener.Listener)) lc = .ok l ∧
          effectiveProtocol lc ∉ supportedProtocols ∧
          a = .panic (Sprintf "Unrecognized protocol '%s' on listener '%s'"
            [effectiveProtocol lc, lc.Name]))) := by
  induction ls generalizing bound with
  | nil => simp [Proxy.Run.listenLoop] at h
  | cons lc0 rest ih =>
    cases ha : (self.Listen env bound lc0 wg).abort with
    | some a0 =>
      rw [listenLoop_cons_aborted env self wg lc0 rest bound a0 ha] at h ⊢
      simp only [Option.some.injEq] at h
      subst h
      have hs := Listen_aborted env self bound lc0 wg a0 ha
      refine ⟨[], lc0, rest, rfl, by simp [hs], ?_, ?_⟩
      · intro x t y hsplit
        rw [hs] at hsplit
        simp at hsplit
      · simp only [hs, List.map_nil, List.append_nil]
        exact Listen_abort_form env self bound lc0 wg a0 ha
    | none =>
      rw [listenLoop_cons_normal env self wg lc0 rest bound ha] at h ⊢
      obtain ⟨l, kind, hr, hk, hb, hs⟩ := Listen_normal_form env self bound lc0 wg ha
      rw [hb] at h ⊢
      obtain ⟨pre, lc, post, hsplit, hcfg, htasks, hstop⟩ := ih (bound ++ [l]) h
      have hsup : effectiveProtocol lc0 ∈ supportedProtocols :=
        (dispatch_isSome_iff _).1 (by rw [hk]; rfl)
      simp only [startedTasks_append, hs, List.singleton_append]
      refine ⟨lc0 :: pre, lc, post, by simp [hsplit], by simp [hcfg], ?_, ?_⟩
      · intro x t y hxy
        cases x with
        | nil =>
          simp only [List.nil_append, List.cons.injEq] at hxy
          obtain ⟨ht, _⟩ := hxy
          subst ht
          exact ⟨hsup, by simpa using hr, rfl⟩
        | cons x0 x1 =>
          simp only [List.cons_append, List.cons.injEq] at hxy
          obtain ⟨hx0, hrest⟩ := hxy
          subst hx0
          obtain ⟨h1, h2, h3⟩ := htasks x1 t y hrest
          refine ⟨h1, ?_, h3⟩
          simpa [List.append_assoc] using h2
      · simpa [List.append_assoc] using hstop

end ListenFacts

/-! ## Dispatch on the protocol identifier -/

/-- C3. When the bind of `Proxy.Listen` succeeds with socket `l`, the effective protocol is
`Protocol`, or `Name` when `Protocol` is empty; for `"pg"`, `"http"`, `"ssh"` and
`"ssh-agent"` the call ends normally having started exactly one listener task, of the pg,
HTTP, SSH and SSH-agent variant, built from the same listener configuration, the bound
socket, `Proxy.Providers` and `Config.Handlers`; for every other string the call panics and
has started no listener task. -/
theorem Listen_selects_variant {H : Type} (env : Env) (self : Proxy H)
    (bound : List NetListener) (lc : config.Listener) (wg : WaitGroup)
    (network address protocol : String) (l : NetListener)
    (hp : protocol = if lc.Protocol = "" then lc.Name else lc.Protocol)
    (hbind : Effect.netListen network address (.ok l) ∈ (self.Listen env bound lc wg).trace) :
    (protocol = "pg" →
      (self.Listen env bound lc wg).abort = none ∧
      startedTasks (self.Listen env bound lc wg).trace =
        [⟨wg, ⟨.pg, lc, l, self.Providers, self.Config.Handlers⟩⟩]) ∧
    (protocol = "http" →
      (self.Listen env bound lc wg).abort = none ∧
      startedTasks (self.Listen env bound lc wg).trace =
        [⟨wg, ⟨.http, lc, l, self.Providers, self.Config.Handlers⟩⟩]) ∧
    (protocol = "ssh" →
      (self.Listen env bound lc wg).abort = none ∧
      startedTasks (self.Listen env bound lc wg).trace =
        [⟨wg, ⟨.ssh, lc, l, self.Providers, self.Config.Handlers⟩⟩]) ∧
    (protocol = "ssh-agent" →
      (self.Listen env bound lc wg).abort = none ∧
      startedTasks (self.Listen env bound lc wg).trace =
        [⟨wg, ⟨.sshagent, lc, l, self.Providers, self.Config.Handlers⟩⟩]) ∧
    (protocol ∉ ["pg", "http", "ssh", "ssh-agent"] →
      (self.Listen env bound lc wg).abort =
        some (.panic (Sprintf "Unrecognized protocol '%s' on listener '%s'"
          [protocol, lc.Name])) ∧
      startedTasks (self.Listen env bound lc wg).trace = []) := by
  have hr := Listen_bind_result env self bound lc wg network address _ hbind
  have hpe : protocol = effectiveProtocol lc := hp
  have started : ∀ kind, dispatch (effectiveProtocol lc) = some kind →
      (self.Listen env bound lc wg).abort = none ∧
      startedTasks (self.Listen env bound lc wg).trace =
        [⟨wg, ⟨kind, lc, l, self.Providers, self.Config.Handlers⟩⟩] := by
    intro kind hk
    rw [Listen_of_ok_some env self bound lc wg l kind hr hk]
    refine ⟨rfl, ?_⟩
    have h0 := startedTasks_bindEffects (H := H) env bound lc
    unfold startedTasks at h0 ⊢
    simp [List.filterMap_append, h0, Effect.task?]
  refine ⟨?_, ?_, ?_, ?_, ?_⟩
  · intro h; apply started; rw [← hpe, h]; rfl
  · intro h; apply started; rw [← hpe, h]; rfl
  · intro h; apply started; rw [← hpe, h]; rfl
  · intro h; apply started; rw [← hpe, h]; rfl
  · intro h
    have hk : dispatch (effectiveProtocol lc) = none :=
      (dispatch_eq_none_iff _).2 (by rw [← hpe]; exact h)
    rw [Listen_of_ok_none env self bound lc wg l hr hk, hpe]
    refine ⟨rfl, ?_⟩
    have h0 := startedTasks_bindEffects (H := H) env bound lc
    unfold startedTasks at h0 ⊢
    simp [List.filterMap_append, h0, Effect.task?]

/-! ## Bind mode and the signal handler -/

/-- C8. `Proxy.Listen` makes exactly one bind: on `"tcp"` at `Address` when `Address` is not
empty (whatever `Socket` is), and on `"unix"` at `Socket` when it is empty. The signal
registration for interrupt, kill and terminate and the goroutine of the handler, which
closes the socket and exits with status 0, are in the trace exactly in the unix case. When
the bind fails the call ends in `log.Fatal` with the bind error and has started no
listener task. -/
theorem Listen_bind_mode {H : Type} (env : Env) (self : Proxy H)
    (bound : List NetListener) (lc : config.Listener) (wg : WaitGroup) :
    (lc.Address ≠ "" →
      (self.Listen env bound lc wg).trace.filterMap Effect.bind? = [("tcp", lc.Address)] ∧
      Effect.netListen "tcp" lc.Address (env.netListen bound "tcp" lc.Address) ∈
        (self.Listen env bound lc wg).trace ∧
      (self.Listen env bound lc wg).trace.filter Effect.isSignalSetup = []) ∧
    (lc.Address = "" →
      (self.Listen env bound lc wg).trace.filterMap Effect.bind? = [("unix", lc.Socket)] ∧
      Effect.netListen "unix" lc.Socket (env.netListen bound "unix" lc.Socket) ∈
        (self.Listen env bound lc wg).trace ∧
      (self.Listen env bound lc wg).trace.filter Effect.isSignalSetup =
        [.signalNotify [.Interrupt, .Kill, .SIGTERM],
         .goSignalHandler (env.netListen bound "unix" lc.Socket).toOption]) ∧
    (∀ (l : NetListener) (sig : String),
      signalHandler (some l) sig =
        [.logPrintf "Caught signal %s: shutting down." [sig], .close l, .exit 0]) ∧
    (∀ (network address : String) (err : error),
      Effect.netListen network address (.error err) ∈ (self.Listen env bound lc wg).trace →
      (self.Listen env bound lc wg).abort = some (.fatal err) ∧
      startedTasks (self.Listen env bound lc wg).trace = []) := by
  obtain ⟨tail, ht, hb, hs⟩ := Listen_trace_shape env self bound lc wg
  refine ⟨?_, ?_, ?_, ?_⟩
  · intro ha
    rw [ht, bindEffects_tcp env bound lc ha]
    simp [hb, hs, Effect.bind?, Effect.isSignalSetup]
  · intro ha
    rw [ht, bindEffects_unix env bound lc ha]
    simp [hb, hs, Effect.bind?, Effect.isSignalSetup]
  · intro l sig; rfl
  · intro network address err h
    have hr := Listen_bind_result env self bound lc wg network address _ h
    rw [Listen_of_error env self bound lc wg err hr]
    exact ⟨rfl, startedTasks_bindEffects env bound lc⟩

/-! ## Facts about `loadProvider` and the provider loop -/

section LoadFacts

variable {H : Type}

theorem Sprintf_unrecognized_type (pt : String) :
    Sprintf "Unrecognized provider type '%s'" [pt] =
      "Unrecognized provider type '" ++ pt ++ "'" := rfl

theorem Sprintf_unable_to_load (name err : String) :
    Sprintf "Unable to load provider '%s' : %s" [name, err] =
      "Unable to load provider '" ++ name ++ "' : " ++ err := by
  apply String.ext
  simp [Sprintf, Sprintf.go, String.data_append]

theorem Contains_append_left (a b needle : String) (h : Contains b needle) :
    Contains (a ++ b) needle := by
  obtain ⟨s, t, hst⟩ := h
  exact ⟨a.data ++ s, t, by simp [String.data_append, ← hst]⟩

theorem Contains_append_right (a b needle : String) (h : Contains a needle) :
    Contains (a ++ b) needle := by
  obtain ⟨s, t, hst⟩ := h
  exact ⟨s, t ++ b.data, by simp [String.data_append, ← hst]⟩

theorem Contains_self (a : String) : Contains a a := ⟨[], [], by simp⟩

theorem loadProvider_of_unsupported (env : Env) (pc : config.Provider)
    (h : providerType pc ≠ "conjur") :
    loadProvider env pc =
      ⟨[], .error (Errorf "Unrecognized provider type '%s'" [providerType pc])⟩ := by
  unfold providerType at h
  simp [loadProvider, providerType, h]

theorem loadProvider_configuration_error (env : Env) (pc : config.Provider) (err : error)
    (h : providerType pc = "conjur") (h1 : env.Resolve [] pc.Configuration = .error err) :
    loadProvider env pc = ⟨[.Resolve [] pc.Configuration], .error err⟩ := by
  unfold providerType at h
  simp [loadProvider, h, h1]

theorem loadProvider_credentials_error (env : Env) (pc : config.Provider)
    (configuration : Values) (err : error)
    (h : providerType pc = "conjur") (h1 : env.Resolve [] pc.Configuration = .ok configuration)
    (h2 : env.Resolve [] pc.Credentials = .error err) :
    loadProvider env pc =
      ⟨[.Resolve [] pc.Configuration, .Resolve [] pc.Credentials], .error err⟩ := by
  unfold providerType at h
  simp [loadProvider, h, h1, h2]

theorem loadProvider_resolved (env : Env) (pc : config.Provider)
    (configuration credentials : Values)
    (h : providerType pc = "conjur") (h1 : env.Resolve [] pc.Configuration = .ok configuration)
    (h2 : env.Resolve [] pc.Credentials = .ok credentials) :
    loadProvider env pc =
      ⟨[.Resolve [] pc.Configuration, .Resolve [] pc.Credentials,
          .NewConjurProvider pc.Name configuration credentials],
        env.NewConjurProvider pc.Name configuration credentials⟩ := by
  unfold providerType at h
  simp [loadProvider, h, h1, h2]

/-- Every `Resolve` call of `loadProvider` passes the empty provider list. -/
theorem loadProvider_calls_empty (env : Env) (pc : config.Provider)
    (providers : List provider.Provider) (spec : config.Variables)
    (h : Call.Resolve providers spec ∈ (loadProvider env pc).calls) : providers = [] := by
  by_cases hc : providerType pc = "conjur"
  · cases h1 : env.Resolve [] pc.Configuration with
    | error err =>
      rw [loadProvider_configuration_error env pc err hc h1] at h
      simp at h; exact h.1
    | ok configuration =>
      cases h2 : env.Resolve [] pc.Credentials with
      | error err =>
        rw [loadProvider_credentials_error env pc configuration err hc h1 h2] at h
        simp at h; rcases h with h | h <;> exact h.1
      | ok credentials =>
        rw [loadProvider_resolved env pc configuration credentials hc h1 h2] at h
        simp at h; rcases h with h | h <;> exact h.1
  · rw [loadProvider_of_unsupported env pc hc] at h
    simp at h

/-- The effects of the provider loop are calls and log lines. -/
theorem loadLoop_trace (env : Env) (cfgs : List config.Provider)
    (loaded : List provider.Provider) :
    ∀ e ∈ (Proxy.Run.loadLoop (H := H) env cfgs loaded).1,
      e.isBind = false ∧ e.isListenerStart = false ∧
      ∀ providers spec, e = .call (.Resolve providers spec) → providers = [] := by
  induction cfgs generalizing loaded with
  | nil => intro e he; simp [Proxy.Run.loadLoop] at he
  | cons pc rest ih =>
    intro e he
    unfold Proxy.Run.loadLoop at he
    have hcall : ∀ e ∈ (loadProvider env pc).calls.map (Effect.call (H := H)),
        e.isBind = false ∧ e.isListenerStart = false ∧
        ∀ providers spec, e = .call (.Resolve providers spec) → providers = [] := by
      intro e he
      obtain ⟨c, hc, rfl⟩ := List.mem_map.1 he
      refine ⟨rfl, rfl, ?_⟩
      intro providers spec heq
      injection heq with heq
      subst heq
      exact loadProvider_calls_empty env pc providers spec hc
    cases hr : (loadProvider env pc).result with
    | error err =>
      simp only [hr] at he
      exact hcall e he
    | ok p =>
      simp only [hr] at he
      rcases List.mem_append.1 he with he | he
      · exact hcall e he
      · rcases List.mem_cons.1 he with he | he
        · subst he
          exact ⟨rfl, rfl, by intro _ _ h; cases h⟩
        · exact ih _ e he

/-- The provider loop panics at the first provider that fails to load. -/
theorem loadLoop_first_failure (env : Env) (pre : List config.Provider)
    (pc : config.Provider) (post : List config.Provider) (loaded : List provider.Provider)
    (err : error)
    (hpre : ∀ q ∈ pre, ∃ p, (loadProvider env q).result = .ok p)
    (hpc : (loadProvider env pc).result = .error err) :
    (Proxy.Run.loadLoop (H := H) env (pre ++ pc :: post) loaded).2 =
      .error (Sprintf "Unable to load provider '%s' : %s" [pc.Name, err]) := by
  induction pre generalizing loaded with
  | nil => simp [Proxy.Run.loadLoop, hpc]
  | cons q pre ih =>
    obtain ⟨p, hp⟩ := hpre q (List.mem_cons_self _ _)
    have := ih (loaded ++ [p]) (fun q hq => hpre q (List.mem_cons_of_mem _ hq))
    simp [Proxy.Run.loadLoop, hp, this]

/-- A list with a failing provider splits at the first one. -/
theorem exists_first_failure (env : Env) (cfgs : List config.Provider)
    (h : ∃ pc ∈ cfgs, ∃ err, (loadProvider env pc).result = .error err) :
    ∃ pre pc post err, cfgs = pre ++ pc :: post ∧
      (∀ q ∈ pre, ∃ p, (loadProvider env q).result = .ok p) ∧
      (loadProvider env pc).result = .error err := by
  induction cfgs with
  | nil => simp at h
  | cons q rest ih =>
    cases hq : (loadProvider env q).result with
    | error err => exact ⟨[], q, rest, err, rfl, by simp, hq⟩
    | ok p =>
      obtain ⟨pc, hmem, err, herr⟩ := h
      rcases List.mem_cons.1 hmem with rfl | hmem
      · rw [hq] at herr; cases herr
      · obtain ⟨pre, pc2, post, err2, hsplit, hpre, hpc⟩ := ih ⟨pc, hmem, err, herr⟩
        refine ⟨q :: pre, pc2, post, err2, by simp [hsplit], ?_, hpc⟩
        intro x hx
        rcases List.mem_cons.1 hx with rfl | hx
        · exact ⟨p, hq⟩
        · exact hpre x hx

/-- When the provider loop panics, `Proxy.Run` ends there with the trace of the loop. -/
theorem Run_of_load_error (env : Env) (self : Proxy H) (msg : String)
    (h : (Proxy.Run.loadLoop (H := H) env self.Config.Providers []).2 = .error msg) :
    self.Run env =
      { trace := (Proxy.Run.loadLoop (H := H) env self.Config.Providers []).1
        outcome := .panic msg } := by
  unfold Proxy.Run
  split
  · next tr m heq => rw [heq] at h; simp at h; subst h; simp [heq]
  · next tr ps heq => rw [heq] at h; simp at h

/-- The modelled resolver fails on a reference to a provider that is not in the set. -/
theorem Resolve_absent (providers : List provider.Provider) (spec : config.Variables)
    (h : ∃ field prov path, (field, config.ValueSpec.reference prov path) ∈ spec ∧
      ∀ p ∈ providers, p.Name ≠ prov) :
    ∃ err, Resolve providers spec = .error err := by
  induction spec with
  | nil => simp at h
  | cons entry rest ih =>
    obtain ⟨name, v⟩ := entry
    obtain ⟨field, prov, path, hmem, habs⟩ := h
    cases v with
    | literal value =>
      have hrest : (field, config.ValueSpec.reference prov path) ∈ rest := by
        simpa using hmem
      obtain ⟨err, herr⟩ := ih ⟨field, prov, path, hrest, habs⟩
      exact ⟨err, by simp [Resolve, herr]⟩
    | reference prov2 path2 =>
      unfold Resolve
      cases hf : providers.find? (fun p => p.Name == prov2) with
      | none => exact ⟨_, rfl⟩
      | some p =>
        simp only []
        cases hv : p.Value path2 with
        | error err => exact ⟨err, rfl⟩
        | ok bytes =>
          simp only []
          rcases List.mem_cons.1 hmem with heq | hrest
          · exfalso
            injection heq with _ heq
            injection heq with hprov _
            have hp := List.find?_some hf
            have hpm := List.mem_of_find?_eq_some hf
            simp at hp
            exact habs p hpm (by rw [hp, hprov])
          · obtain ⟨err, herr⟩ := ih ⟨field, prov, path, hrest, habs⟩
            exact ⟨err, by simp [herr]⟩

/-- When all providers load, `Proxy.Run` continues with the listener loop. -/
theorem Run_of_load_ok (env : Env) (self : Proxy H) (providers : List provider.Provider)
    (h : (Proxy.Run.loadLoop (H := H) env self.Config.Providers []).2 = .ok providers) :
    (self.Run env).trace =
      (Proxy.Run.loadLoop (H := H) env self.Config.Providers []).1 ++
        (Proxy.Run.listenLoop env { self with Providers := providers }
          ((WaitGroup.mk 0).Add self.Config.Listeners.length) self.Config.Listeners []).1 ∧
    (self.Run env).outcome =
      match (Proxy.Run.listenLoop env { self with Providers := providers }
          ((WaitGroup.mk 0).Add self.Config.Listeners.length) self.Config.Listeners []).2 with
      | some (.panic msg) => .panic msg
      | some (.fatal msg) => .fatal msg
      | none => .wait ((WaitGroup.mk 0).Add self.Config.Listeners.length) := by
  unfold Proxy.Run
  split
  · next tr m heq => rw [heq] at h; simp at h
  · next tr ps heq =>
    rw [heq] at h
    simp only [Except.ok.injEq] at h
    subst h
    simp only [heq]
    split <;> next heq2 => simp [heq2]

/-- The tasks started by `Proxy.Run` are those started by its listener loop. -/
theorem startedTasks_loadLoop (env : Env) (cfgs : List config.Provider)
    (loaded : List provider.Provider) :
    startedTasks (Proxy.Run.loadLoop (H := H) env cfgs loaded).1 = [] := by
  unfold startedTasks
  rw [List.filterMap_eq_nil_iff]
  intro e he
  have := (loadLoop_trace env cfgs loaded e he).2.1
  simpa [Effect.isListenerStart] using this

/-- When every provider loads, the provider loop yields the provider list. -/
theorem loadLoop_all_ok (env : Env) (cfgs : List config.Provider)
    (loaded : List provider.Provider)
    (h : ∀ pc ∈ cfgs, ∃ p, (loadProvider env pc).result = .ok p) :
    ∃ providers, (Proxy.Run.loadLoop (H := H) env cfgs loaded).2 = .ok providers := by
  induction cfgs generalizing loaded with
  | nil => exact ⟨loaded, rfl⟩
  | cons pc rest ih =>
    obtain ⟨p, hp⟩ := h pc (List.mem_cons_self _ _)
    obtain ⟨providers, hps⟩ := ih (loaded ++ [p]) (fun q hq => h q (List.mem_cons_of_mem _ hq))
    exact ⟨providers, by simp [Proxy.Run.loadLoop, hp, hps]⟩

end LoadFacts

/-! ## Fatal provider failures -/

/-- C1. When some provider of the configuration fails to load, `Proxy.Run` panics in the
provider loop, with the message built for a failing provider, and its trace contains no
bind and no listener-task start, whatever the listeners are. -/
theorem Run_provider_failure_no_bind {H : Type} (env : Env) (self : Proxy H)
    (h : ∃ pc ∈ self.Config.Providers, ∃ err, (loadProvider env pc).result = .error err) :
    (∃ pc ∈ self.Config.Providers, ∃ err,
      (loadProvider env pc).result = .error err ∧
      (self.Run env).outcome =
        .panic (Sprintf "Unable to load provider '%s' : %s" [pc.Name, err])) ∧
    ∀ e ∈ (self.Run env).trace, e.isBind = false ∧ e.isListenerStart = false := by
  obtain ⟨pre, pc, post, err, hsplit, hpre, hpc⟩ :=
    exists_first_failure env self.Config.Providers h
  have hloop := loadLoop_first_failure (H := H) env pre pc post [] err hpre hpc
  rw [← hsplit] at hloop
  rw [Run_of_load_error env self _ hloop]
  refine ⟨⟨pc, by rw [hsplit]; simp, err, hpc, rfl⟩, ?_⟩
  intro e he
  have := loadLoop_trace (H := H) env self.Config.Providers [] e he
  exact ⟨this.1, this.2.1⟩

/-- C4, as stated, fails: for the provider named `"vault"` of type `"nonexistent"` the
error returned by `loadProvider` names the type and does not contain the provider name. -/
theorem loadProvider_error_omits_name :
    (if vaultProvider.Type_ = "" then vaultProvider.Name else vaultProvider.Type_) ≠ "conjur" ∧
    ∃ err, (loadProvider sampleEnv vaultProvider).result = .error err ∧
      Contains err "nonexistent" ∧ ¬ Contains err vaultProvider.Name :=
  ⟨by decide, "Unrecognized provider type 'nonexistent'", rfl, by decide, by decide⟩

/-- C4, amended. For a provider whose effective type `pt` is not `"conjur"`, `loadProvider`
calls no collaborator and returns no provider and the error
`Unrecognized provider type '<pt>'`, which contains the type string. The provider name is
added by `Proxy.Run`: when this provider is the first that fails to load, `Run` panics with
`Unable to load provider '<name>' : <error>`, which contains both the name and the type. -/
theorem loadProvider_unsupported_type {H : Type} (env : Env) (pc : config.Provider)
    (pt : String) (hp : pt = if pc.Type_ = "" then pc.Name else pc.Type_)
    (hne : pt ≠ "conjur") :
    (loadProvider env pc).result = .error ("Unrecognized provider type '" ++ pt ++ "'") ∧
    (loadProvider env pc).calls = [] ∧
    Contains ("Unrecognized provider type '" ++ pt ++ "'") pt ∧
    ∀ (self : Proxy H) (pre post : List config.Provider),
      self.Config.Providers = pre ++ pc :: post →
      (∀ q ∈ pre, ∃ p, (loadProvider env q).result = .ok p) →
      (self.Run env).outcome =
        .panic ("Unable to load provider '" ++ pc.Name ++ "' : " ++
          ("Unrecognized provider type '" ++ pt ++ "'")) ∧
      Contains ("Unable to load provider '" ++ pc.Name ++ "' : " ++
          ("Unrecognized provider type '" ++ pt ++ "'")) pc.Name ∧
      Contains ("Unable to load provider '" ++ pc.Name ++ "' : " ++
          ("Unrecognized provider type '" ++ pt ++ "'")) pt := by
  have hpt : providerType pc = pt := hp.symm
  have hload := loadProvider_of_unsupported env pc (by rw [hpt]; exact hne)
  rw [hpt] at hload
  have hc : Contains ("Unrecognized provider type '" ++ pt ++ "'") pt :=
    Contains_append_right _ _ _ (Contains_append_left _ _ _ (Contains_self pt))
  refine ⟨by rw [hload]; rfl, by rw [hload], hc, ?_⟩
  intro self pre post hsplit hpre
  have hres : (loadProvider env pc).result =
      .error ("Unrecognized provider type '" ++ pt ++ "'") := by rw [hload]; rfl
  have hloop := loadLoop_first_failure (H := H) env pre pc post [] _ hpre hres
  rw [← hsplit, Sprintf_unable_to_load] at hloop
  rw [Run_of_load_error env self _ hloop]
  refine ⟨rfl, ?_, Contains_append_left _ _ _ hc⟩
  exact Contains_append_right _ _ _
    (Contains_append_right _ _ _ (Contains_append_left _ _ _ (Contains_self _)))

/-- The amended C4 at the provider named `"vault"` of type `"nonexistent"`. -/
theorem loadProvider_unsupported_type_witness :
    (loadProvider sampleEnv vaultProvider).result =
        .error ("Unrecognized provider type '" ++ "nonexistent" ++ "'") ∧
    (loadProvider sampleEnv vaultProvider).calls = [] ∧
    Contains ("Unrecognized provider type '" ++ "nonexistent" ++ "'") "nonexistent" ∧
    ∀ (self : Proxy Unit) (pre post : List config.Provider),
      self.Config.Providers = pre ++ vaultProvider :: post →
      (∀ q ∈ pre, ∃ p, (loadProvider sampleEnv q).result = .ok p) →
      (self.Run sampleEnv).outcome =
        .panic ("Unable to load provider '" ++ vaultProvider.Name ++ "' : " ++
          ("Unrecognized provider type '" ++ "nonexistent" ++ "'")) ∧
      Contains ("Unable to load provider '" ++ vaultProvider.Name ++ "' : " ++
          ("Unrecognized provider type '" ++ "nonexistent" ++ "'")) vaultProvider.Name ∧
      Contains ("Unable to load provider '" ++ vaultProvider.Name ++ "' : " ++
          ("Unrecognized provider type '" ++ "nonexistent" ++ "'")) "nonexistent" :=
  loadProvider_unsupported_type sampleEnv vaultProvider "nonexistent" rfl (by decide)

/-! ## Unrecognized protocols -/

/-- C2, as stated, fails: with a `pg` listener followed by a listener of protocol
`"carrierpigeon"`, the task of the `pg` listener is started before `Proxy.Run` panics at
the second entry. -/
theorem Run_starts_task_before_unrecognized :
    (∃ lc ∈ pigeonProxy.Config.Listeners, effectiveProtocol lc ∉ supportedProtocols) ∧
    (pigeonProxy.Run sampleEnv).trace.any Effect.isListenerStart = true ∧
    (startedTasks (pigeonProxy.Run sampleEnv).trace).map (fun t => t.listener.Config.Name) =
      ["pg"] ∧
    (pigeonProxy.Run sampleEnv).outcome =
      .panic "Unrecognized protocol 'carrierpigeon' on listener 'x'" :=
  ⟨by decide, by decide, by decide, by decide⟩

/-- C2, amended. When the listener list has an entry with an unrecognized effective
protocol, `Proxy.Run` never reaches its wait, and the listener tasks in its trace belong,
in order, to a leading segment of the entries that precede the first unrecognized one. When
a provider fails to load, no task is started. When all providers load, the run stops at the
first entry whose bind fails or whose effective protocol is unrecognized, given the sockets
of the tasks started before it: in `log.Fatal` with the bind error in the first case, in the
panic for the unrecognized protocol in the second. The tasks started are exactly one per
entry before that one, in list order; each is in the trace, has a supported protocol, runs
on the socket its bind returned and holds the wait group value of `Run`. -/
theorem Run_unrecognized_protocol {H : Type} (env : Env) (self : Proxy H)
    (h : ∃ lc ∈ self.Config.Listeners, effectiveProtocol lc ∉ supportedProtocols) :
    (∀ wg, (self.Run env).outcome ≠ .wait wg) ∧
    ((startedTasks (self.Run env).trace).map (fun t => t.listener.Config) <+:
      self.Config.Listeners.takeWhile
        (fun lc => decide (effectiveProtocol lc ∈ supportedProtocols))) ∧
    ((∃ pc ∈ self.Config.Providers, ∃ err, (loadProvider env pc).result = .error err) →
      startedTasks (self.Run env).trace = []) ∧
    ((∀ pc ∈ self.Config.Providers, ∃ p, (loadProvider env pc).result = .ok p) →
      ∃ pre lc post, self.Config.Listeners = pre ++ lc :: post ∧
        (startedTasks (self.Run env).trace).map (fun t => t.listener.Config) = pre ∧
        (∀ x t y, startedTasks (self.Run env).trace = x ++ t :: y →
          Effect.goListen t ∈ (self.Run env).trace ∧
          effectiveProtocol t.listener.Config ∈ supportedProtocols ∧
          (if t.listener.Config.Address ≠ "" then
              env.netListen (x.map (fun t => t.listener.Listener)) "tcp"
                t.listener.Config.Address
            else
              env.netListen (x.map (fun t => t.listener.Listener)) "unix"
                t.listener.Config.Socket) = .ok t.listener.Listener ∧
          t.wg.counter = self.Config.Listeners.length) ∧
        ((∃ err,
            (if lc.Address ≠ "" then
                env.netListen ((startedTasks (self.Run env).trace).map
                  (fun t => t.listener.Listener)) "tcp" lc.Address
              else
                env.netListen ((startedTasks (self.Run env).trace).map
                  (fun t => t.listener.Listener)) "unix" lc.Socket) = .error err ∧
            (self.Run env).outcome = .fatal err) ∨
          (∃ l,
            (if lc.Address ≠ "" then
                env.netListen ((startedTasks (self.Run env).trace).map
                  (fun t => t.listener.Listener)) "tcp" lc.Address
              else
                env.netListen ((startedTasks (self.Run env).trace).map
                  (fun t => t.listener.Listener)) "unix" lc.Socket) = .ok l ∧
            effectiveProtocol lc ∉ supportedProtocols ∧
            (self.Run env).outcome =
              .panic (Sprintf "Unrecognized protocol '%s' on listener '%s'"
                [effectiveProtocol lc, lc.Name])))) := by
  cases hl : (Proxy.Run.loadLoop (H := H) env self.Config.Providers []).2 with
  | error msg =>
    rw [Run_of_load_error env self msg hl]
    refine ⟨?_, ?_, ?_, ?_⟩
    · intro wg hw
      cases hw
    · simp only [startedTasks_loadLoop, List.map_nil]
      exact List.nil_prefix
    · intro _
      exact startedTasks_loadLoop env _ _
    · intro hall
      obtain ⟨providers, hps⟩ := loadLoop_all_ok (H := H) env self.Config.Providers [] hall
      rw [hl] at hps
      cases hps
  | ok providers =>
    obtain ⟨htr, hout⟩ := Run_of_load_ok env self providers hl
    have hab := listenLoop_unsupported env { self with Providers := providers }
      ((WaitGroup.mk 0).Add self.Config.Listeners.length) self.Config.Listeners [] h
    have hst : startedTasks (self.Run env).trace =
        startedTasks (Proxy.Run.listenLoop env { self with Providers := providers }
          ((WaitGroup.mk 0).Add self.Config.Listeners.length)
          self.Config.Listeners []).1 := by
      rw [htr, startedTasks_append, startedTasks_loadLoop, List.nil_append]
    refine ⟨?_, ?_, ?_, ?_⟩
    · intro wg hw
      rw [hout] at hw
      split at hw
      · cases hw
      · cases hw
      · next hnone => exact hab hnone
    · rw [hst]
      exact listenLoop_started env _ _ _ _
    · rintro ⟨pc, hpc, err, herr⟩
      obtain ⟨pre, pc2, post, err2, hsplit, hpre, hpc2⟩ :=
        exists_first_failure env self.Config.Providers ⟨pc, hpc, err, herr⟩
      have hloop := loadLoop_first_failure (H := H) env pre pc2 post [] err2 hpre hpc2
      rw [← hsplit, hl] at hloop
      cases hloop
    · intro _
      cases hres : (Proxy.Run.listenLoop env { self with Providers := providers }
          ((WaitGroup.mk 0).Add self.Config.Listeners.length)
          self.Config.Listeners []).2 with
      | none => exact absurd hres hab
      | some a =>
        obtain ⟨pre, lc, post, hsplit, hcfg, htasks, hstop⟩ :=
          listenLoop_stop env _ _ _ _ a hres
        rw [← hst] at hcfg htasks hstop
        simp only [List.nil_append] at htasks hstop
        rw [hres] at hout
        refine ⟨pre, lc, post, hsplit, hcfg, ?_, ?_⟩
        · intro x t y hxy
          obtain ⟨h1, h2, h3⟩ := htasks x t y hxy
          refine ⟨?_, h1, h2, ?_⟩
          · have hmem : t ∈ startedTasks (self.Run env).trace := by
              rw [hxy]; simp
            exact (mem_startedTasks _ _).1 hmem
          · rw [h3]; simp [WaitGroup.Add]
        · rcases hstop with ⟨err, hb, ha⟩ | ⟨l, hb, hun, ha⟩
          · subst ha
            exact Or.inl ⟨err, hb, hout⟩
          · subst ha
            exact Or.inr ⟨l, hb, hun, hout⟩

/-- The amended C2 at the proxy with a `pg` listener and a `"carrierpigeon"` listener: all
its providers load, so the run stops at an entry that the started tasks precede. -/
theorem Run_unrecognized_protocol_witness :
    (∃ lc ∈ pigeonProxy.Config.Listeners, effectiveProtocol lc ∉ supportedProtocols) ∧
    (∀ wg, (pigeonProxy.Run sampleEnv).outcome ≠ .wait wg) ∧
    ∃ pre lc post, pigeonProxy.Config.Listeners = pre ++ lc :: post ∧
      (startedTasks (pigeonProxy.Run sampleEnv).trace).map (fun t => t.listener.Config) =
        pre ∧
      (∀ x t y, startedTasks (pigeonProxy.Run sampleEnv).trace = x ++ t :: y →
        Effect.goListen t ∈ (pigeonProxy.Run sampleEnv).trace ∧
        effectiveProtocol t.listener.Config ∈ supportedProtocols ∧
        (if t.listener.Config.Address ≠ "" then
            sampleEnv.netListen (x.map (fun t => t.listener.Listener)) "tcp"
              t.listener.Config.Address
          else
            sampleEnv.netListen (x.map (fun t => t.listener.Listener)) "unix"
              t.listener.Config.Socket) = .ok t.listener.Listener ∧
        t.wg.counter = pigeonProxy.Config.Listeners.length) ∧
      ((∃ err,
          (if lc.Address ≠ "" then
              sampleEnv.netListen ((startedTasks (pigeonProxy.Run sampleEnv).trace).map
                (fun t => t.listener.Listener)) "tcp" lc.Address
            else
              sampleEnv.netListen ((startedTasks (pigeonProxy.Run sampleEnv).trace).map
                (fun t => t.listener.Listener)) "unix" lc.Socket) = .error err ∧
          (pigeonProxy.Run sampleEnv).outcome = .fatal err) ∨
        (∃ l,
          (if lc.Address ≠ "" then
              sampleEnv.netListen ((startedTasks (pigeonProxy.Run sampleEnv).trace).map
                (fun t => t.listener.Listener)) "tcp" lc.Address
            else
              sampleEnv.netListen ((startedTasks (pigeonProxy.Run sampleEnv).trace).map
                (fun t => t.listener.Listener)) "unix" lc.Socket) = .ok l ∧
          effectiveProtocol lc ∉ supportedProtocols ∧
          (pigeonProxy.Run sampleEnv).outcome =
            .panic (Sprintf "Unrecognized protocol '%s' on listener '%s'"
              [effectiveProtocol lc, lc.Name]))) :=
  ⟨by decide,
    (Run_unrecognized_protocol sampleEnv pigeonProxy (by decide)).1,
    (Run_unrecognized_protocol sampleEnv pigeonProxy (by decide)).2.2.2
      (fun pc hpc => absurd hpc (List.not_mem_nil pc))⟩

/-! ## Provider bootstrap with the empty provider set -/

/-- C5. For a provider whose effective type is `"conjur"`, `loadProvider` resolves the
configuration spec, and after it the credentials spec, with the empty provider list, and
so does every run of `Proxy.Run`, whatever providers are configured. Hence, with a resolver
that fails on a reference whose provider is not in the set it is given, a provider whose
configuration or credentials spec contains a reference fails to load with the error of the
resolver, and `NewConjurProvider` is not called. -/
theorem loadProvider_conjur_empty_provider_set {H : Type} (env : Env) (pc : config.Provider)
    (hpt : (if pc.Type_ = "" then pc.Name else pc.Type_) = "conjur")
    (hres : ∀ providers spec,
      (∃ field prov path, (field, config.ValueSpec.reference prov path) ∈ spec ∧
        ∀ p ∈ providers, p.Name ≠ prov) →
      ∃ err, env.Resolve providers spec = .error err) :
    (∃ rest, (loadProvider env pc).calls = .Resolve [] pc.Configuration :: rest) ∧
    ((∃ configuration, env.Resolve [] pc.Configuration = .ok configuration) →
      ∃ rest, (loadProvider env pc).calls =
        .Resolve [] pc.Configuration :: .Resolve [] pc.Credentials :: rest) ∧
    (∀ providers spec, Call.Resolve providers spec ∈ (loadProvider env pc).calls →
      providers = []) ∧
    (∀ (self : Proxy H) providers spec,
      Effect.call (.Resolve providers spec) ∈ (self.Run env).trace → providers = []) ∧
    ((∃ field prov path,
        (field, config.ValueSpec.reference prov path) ∈ pc.Configuration ∨
        (field, config.ValueSpec.reference prov path) ∈ pc.Credentials) →
      ∃ err, (loadProvider env pc).result = .error err ∧
        (env.Resolve [] pc.Configuration = .error err ∨
          env.Resolve [] pc.Credentials = .error err) ∧
        ∀ name configuration credentials,
          Call.NewConjurProvider name configuration credentials ∉
            (loadProvider env pc).calls) := by
  have hc : providerType pc = "conjur" := hpt
  refine ⟨?_, ?_, loadProvider_calls_empty env pc, ?_, ?_⟩
  · cases h1 : env.Resolve [] pc.Configuration with
    | error err => exact ⟨_, by rw [loadProvider_configuration_error env pc err hc h1]⟩
    | ok configuration =>
      cases h2 : env.Resolve [] pc.Credentials with
      | error err =>
        exact ⟨_, by rw [loadProvider_credentials_error env pc configuration err hc h1 h2]⟩
      | ok credentials =>
        exact ⟨_, by rw [loadProvider_resolved env pc configuration credentials hc h1 h2]⟩
  · rintro ⟨configuration, h1⟩
    cases h2 : env.Resolve [] pc.Credentials with
    | error err =>
      exact ⟨_, by rw [loadProvider_credentials_error env pc configuration err hc h1 h2]⟩
    | ok credentials =>
      exact ⟨_, by rw [loadProvider_resolved env pc configuration credentials hc h1 h2]⟩
  · intro self providers spec hmem
    cases hl : (Proxy.Run.loadLoop (H := H) env self.Config.Providers []).2 with
    | error msg =>
      rw [Run_of_load_error env self msg hl] at hmem
      exact (loadLoop_trace env _ _ _ hmem).2.2 providers spec rfl
    | ok loaded =>
      rw [(Run_of_load_ok env self loaded hl).1] at hmem
      rcases List.mem_append.1 hmem with hmem | hmem
      · exact (loadLoop_trace env _ _ _ hmem).2.2 providers spec rfl
      · exact absurd hmem (listenLoop_no_call env _ _ _ _ _)
  · rintro ⟨field, prov, path, href⟩
    have habs : ∀ p ∈ ([] : List provider.Provider), p.Name ≠ prov := by simp
    cases h1 : env.Resolve [] pc.Configuration with
    | error err =>
      rw [loadProvider_configuration_error env pc err hc h1]
      exact ⟨err, rfl, Or.inl rfl, by simp⟩
    | ok configuration =>
      rcases href with href | href
      · obtain ⟨err, herr⟩ := hres [] pc.Configuration ⟨field, prov, path, href, habs⟩
        rw [h1] at herr; cases herr
      · obtain ⟨err, herr⟩ := hres [] pc.Credentials ⟨field, prov, path, href, habs⟩
        rw [loadProvider_credentials_error env pc configuration err hc h1 herr]
        exact ⟨err, rfl, Or.inr herr, by simp⟩

/-- C5 at the provider `"conjur"` whose credentials refer to the provider `"vault"`, with
the resolver modelled from the spec: it fails to load and is not constructed. -/
theorem loadProvider_conjur_empty_provider_set_witness :
    (if conjurProvider.Type_ = "" then conjurProvider.Name else conjurProvider.Type_) =
      "conjur" ∧
    (∃ field prov path,
        (field, config.ValueSpec.reference prov path) ∈ conjurProvider.Configuration ∨
        (field, config.ValueSpec.reference prov path) ∈ conjurProvider.Credentials) ∧
    ∃ err, (loadProvider sampleEnv conjurProvider).result = .error err ∧
      (sampleEnv.Resolve [] conjurProvider.Configuration = .error err ∨
        sampleEnv.Resolve [] conjurProvider.Credentials = .error err) ∧
      ∀ name configuration credentials,
        Call.NewConjurProvider name configuration credentials ∉
          (loadProvider sampleEnv conjurProvider).calls :=
  ⟨by decide, ⟨"apikey", "vault", "conjur/api-key", Or.inr (by decide)⟩,
    (loadProvider_conjur_empty_provider_set (H := Unit) sampleEnv conjurProvider (by decide)
      Resolve_absent).2.2.2.2 ⟨"apikey", "vault", "conjur/api-key", Or.inr (by decide)⟩⟩

/-! ## Witnesses and evaluations at concrete configurations -/

/-- C1 at the proxy whose only provider has the unsupported type `"nonexistent"`. -/
theorem Run_provider_failure_no_bind_witness :
    (∃ pc ∈ vaultProxy.Config.Providers, ∃ err,
      (loadProvider sampleEnv pc).result = .error err ∧
      (vaultProxy.Run sampleEnv).outcome =
        .panic (Sprintf "Unable to load provider '%s' : %s" [pc.Name, err])) ∧
    ∀ e ∈ (vaultProxy.Run sampleEnv).trace, e.isBind = false ∧ e.isListenerStart = false :=
  Run_provider_failure_no_bind sampleEnv vaultProxy
    ⟨vaultProvider, List.mem_cons_self _ _, "Unrecognized provider type 'nonexistent'", rfl⟩

/-- C3 at the listener named `"pg"` with no `Protocol`: the pg variant is started. -/
theorem Listen_selects_variant_witness :
    (pgProxy.Listen sampleEnv [] pgListener ⟨1⟩).abort = none ∧
    startedTasks (pgProxy.Listen sampleEnv [] pgListener ⟨1⟩).trace =
      [⟨⟨1⟩, ⟨.pg, pgListener, ⟨"tcp", "0.0.0.0:5432"⟩, pgProxy.Providers,
        pgProxy.Config.Handlers⟩⟩] :=
  (Listen_selects_variant sampleEnv pgProxy [] pgListener ⟨1⟩ "tcp" "0.0.0.0:5432" "pg"
    ⟨"tcp", "0.0.0.0:5432"⟩ (by decide) (List.mem_cons_self _ _)).1 rfl

/-- C6 fails on the code: for the listener named `"pg"` with an empty `Protocol`, whose
effective protocol is `"pg"` and for which the pg variant is started, the protocol argument
of the bind log line is the empty `Protocol` field, and the line printed is
` listener 'pg' listening at: 0.0.0.0:5432`. -/
theorem Listen_logs_protocol_field :
    (if pgListener.Protocol = "" then pgListener.Name else pgListener.Protocol) = "pg" ∧
    (startedTasks (pgProxy.Listen sampleEnv [] pgListener ⟨1⟩).trace).map
      (fun t => t.listener.kind) = [.pg] ∧
    (pgProxy.Listen sampleEnv [] pgListener ⟨1⟩).trace.filterMap Effect.log? =
      [("%s listener '%s' listening at: %s", ["", "pg", "0.0.0.0:5432"])] ∧
    Sprintf "%s listener '%s' listening at: %s" ["", "pg", "0.0.0.0:5432"] =
      " listener 'pg' listening at: 0.0.0.0:5432" :=
  ⟨by decide, by decide, by decide, by decide⟩

/-- When `Proxy.Run` reaches `wg.Wait()`, its wait group holds the number of listeners, one
task per listener has been started with a copy of that value, and the wait group of `Run`
still holds the number of listeners after every task has finished. -/
theorem Run_wait_group_unchanged {H : Type} (env : Env) (self : Proxy H) (wg : WaitGroup)
    (h : (self.Run env).outcome = .wait wg) :
    wg.counter = self.Config.Listeners.length ∧
    (startedTasks (self.Run env).trace).map (fun t => t.wg) =
      List.replicate self.Config.Listeners.length wg ∧
    ∃ s, (self.Run env).supervision = some s ∧
      s.finishAll.wg.counter = self.Config.Listeners.length := by
  cases hl : (Proxy.Run.loadLoop (H := H) env self.Config.Providers []).2 with
  | error msg => rw [Run_of_load_error env self msg hl] at h; cases h
  | ok providers =>
    obtain ⟨htr, hout⟩ := Run_of_load_ok env self providers hl
    have hnone : (Proxy.Run.listenLoop env { self with Providers := providers }
        ((WaitGroup.mk 0).Add self.Config.Listeners.length) self.Config.Listeners []).2 =
        none := by
      rw [hout] at h
      split at h
      · cases h
      · cases h
      · next hn => exact hn
    have hwg : wg = (WaitGroup.mk 0).Add self.Config.Listeners.length := by
      rw [hout, hnone] at h
      injection h with h
      exact h.symm
    have hcount : wg.counter = self.Config.Listeners.length := by
      rw [hwg]; simp [WaitGroup.Add]
    refine ⟨hcount, ?_, ?_⟩
    · rw [htr, startedTasks_append, startedTasks_loadLoop, List.nil_append, hwg]
      exact listenLoop_normal env _ _ _ _ hnone
    · refine ⟨⟨wg, startedTasks (self.Run env).trace⟩, ?_, hcount⟩
      unfold RunResult.supervision
      rw [h]

/-- C7 fails on the code: with one `pg` listener `Proxy.Run` reaches `wg.Wait()` with
counter 1, and the started task holds its own wait group with counter 1. When the task
finishes, its own counter drops to 0 while the counter `Run` waits on is still 1, so the
wait is not released. -/
theorem Run_wait_not_released :
    (pgProxy.Run sampleEnv).outcome = .wait ⟨1⟩ ∧
    (pgProxy.Run sampleEnv).supervision.map
        (fun s => (s.wg.counter, s.tasks.map (fun t => t.wg.counter))) =
      some (1, [1]) ∧
    (pgProxy.Run sampleEnv).supervision.map
        (fun s => (s.finishAll.wg.counter, s.finishAll.tasks.map (fun t => t.wg.counter),
          s.finishAll.released)) =
      some (1, [0], false) :=
  ⟨by decide, by decide, by decide⟩

/-! ## `resolveVariables` and `buildEnvironment` -/

namespace Summon

open secretsyml

theorem mapSet_of_not_mem {α : Type} (m : List (String × α)) (key : String) (value : α)
    (h : key ∉ m.map Prod.fst) : mapSet m key value = m ++ [(key, value)] := by
  induction m with
  | nil => rfl
  | cons e rest ih =>
    obtain ⟨k, v⟩ := e
    simp only [List.map_cons, List.mem_cons, not_or] at h
    simp [mapSet, Ne.symm h.1, ih h.2]

theorem lookup_of_mem_nodup {α : Type} (l : List (String × α)) (key : String) (value : α)
    (hnd : (l.map Prod.fst).Nodup) (hmem : (key, value) ∈ l) :
    l.lookup key = some value := by
  induction l with
  | nil => simp at hmem
  | cons e rest ih =>
    obtain ⟨k, v⟩ := e
    simp only [List.map_cons, List.nodup_cons] at hnd
    rcases List.mem_cons.1 hmem with heq | hrest
    · injection heq with hk hv
      subst hk hv
      simp [List.lookup]
    · have hne : key ≠ k := by
        intro hk
        exact hnd.1 (List.mem_map.2 ⟨(key, value), hrest, hk⟩)
      have hbeq : (key == k) = false := by simpa using hne
      simp [List.lookup, hbeq, ih hnd.2 hrest]

/-- With one provider that succeeds on every variable, the loop appends one entry per
secret to a map that holds none of the keys yet. -/
theorem resolveVariables_loop_ok (p : provider.Provider) (secretsMap : SecretsMap)
    (result : Values)
    (hok : ∀ key spec, (key, spec) ∈ secretsMap → spec.IsVar = true →
      ∃ bytes, p.Value spec.Path = .ok bytes)
    (hnd : (secretsMap.map Prod.fst).Nodup)
    (hfresh : ∀ key ∈ secretsMap.map Prod.fst, key ∉ result.map Prod.fst) :
    resolveVariables.loop [p] secretsMap result =
      (result ++ secretsMap.map (fun e => (e.1, resolvedValue p e.2)), none) := by
  induction secretsMap generalizing result with
  | nil => simp [resolveVariables.loop]
  | cons e rest ih =>
    obtain ⟨key, spec⟩ := e
    simp only [List.map_cons, List.nodup_cons] at hnd
    have hkey : key ∉ result.map Prod.fst := hfresh key (by simp)
    have hrest : ∀ value, resolveVariables.loop [p] rest (mapSet result key value) =
        (result ++ (key, value) :: rest.map (fun e => (e.1, resolvedValue p e.2)), none) := by
      intro value
      rw [mapSet_of_not_mem result key value hkey,
        ih (result ++ [(key, value)])
          (fun k s hm hv => hok k s (List.mem_cons_of_mem _ hm) hv) hnd.2]
      · simp
      · intro k hk
        simp only [List.map_append, List.map_cons, List.map_nil, List.mem_append,
          List.mem_singleton, not_or]
        refine ⟨hfresh k (by simp [hk]), ?_⟩
        rintro rfl
        exact hnd.1 hk
    unfold resolveVariables.loop
    by_cases hv : spec.IsVar = true
    · obtain ⟨bytes, hb⟩ := hok key spec (List.mem_cons_self _ _) hv
      simp only [hv, if_true, findProvider, hb, hrest, List.map_cons, resolvedValue]
    · simp only [hv, hrest, List.map_cons, resolvedValue]
      simp

/-- With one provider, the loop returns the error of the first variable on which the
provider fails. -/
theorem resolveVariables_loop_error (p : provider.Provider) (secretsMap : SecretsMap)
    (result : Values)
    (h : ∃ key spec err, (key, spec) ∈ secretsMap ∧ spec.IsVar = true ∧
      p.Value spec.Path = .error err) :
    ∃ key spec err, (key, spec) ∈ secretsMap ∧ spec.IsVar = true ∧
      p.Value spec.Path = .error err ∧
      (resolveVariables.loop [p] secretsMap result).2 = some err := by
  induction secretsMap generalizing result with
  | nil => simp at h
  | cons e rest ih =>
    obtain ⟨key, spec⟩ := e
    have hrest : ∀ result2,
        (¬ (spec.IsVar = true ∧ ∃ err, p.Value spec.Path = .error err)) →
        ∃ key2 spec2 err, (key2, spec2) ∈ (key, spec) :: rest ∧ spec2.IsVar = true ∧
          p.Value spec2.Path = .error err ∧
          (resolveVariables.loop [p] rest result2).2 = some err := by
      intro result2 hno
      obtain ⟨k, s, err, hm, hv, he⟩ := h
      rcases List.mem_cons.1 hm with heq | hm
      · injection heq with hk hs
        subst hk hs
        exact absurd ⟨hv, err, he⟩ hno
      · obtain ⟨k2, s2, err2, hm2, hv2, he2, hres⟩ := ih result2 ⟨k, s, err, hm, hv, he⟩
        exact ⟨k2, s2, err2, List.mem_cons_of_mem _ hm2, hv2, he2, hres⟩
    unfold resolveVariables.loop
    by_cases hv : spec.IsVar = true
    · cases hb : p.Value spec.Path with
      | error err =>
        exact ⟨key, spec, err, List.mem_cons_self _ _, hv, hb, by simp [hv, findProvider, hb]⟩
      | ok bytes =>
        simp only [hv, if_true, findProvider, hb]
        exact hrest _ (by rintro ⟨_, err, he⟩; rw [hb] at he; cases he)
    · simp only [hv]
      exact hrest _ (by rintro ⟨hv2, _⟩; exact hv hv2)

/-- With specs that are not files, `buildEnvironment` returns `len(secrets)` empty strings
followed by one `key=value` string per secret, and leaves the temp factory as it was. -/
theorem buildEnvironment_nonfile {T : Type} (push : T → String → String × T)
    (secrets : Values) (secretsMap : SecretsMap) (tempFactory : T)
    (h : ∀ key ∈ secrets.map Prod.fst, (mapGet secretsMap key).IsFile = false) :
    buildEnvironment push secrets secretsMap tempFactory =
      ((List.replicate secrets.length "" ++
          secrets.map (fun e => Sprintf "%s=%s" [e.1, e.2]), none), tempFactory) := by
  have hloop : ∀ (secrets : Values) (env : List String),
      (∀ key ∈ secrets.map Prod.fst, (mapGet secretsMap key).IsFile = false) →
      buildEnvironment.loop push secretsMap secrets env tempFactory =
        (env ++ secrets.map (fun e => Sprintf "%s=%s" [e.1, e.2]), tempFactory) := by
    intro secrets
    induction secrets with
    | nil => intro env _; simp [buildEnvironment.loop]
    | cons e rest ih =>
      intro env hf
      obtain ⟨key, value⟩ := e
      have hkey : (mapGet secretsMap key).IsFile = false := hf key (by simp)
      have hrest := ih (env ++ [Sprintf "%s=%s" [key, value]])
        (fun k hk => hf k (by simp [hk]))
      simp [buildEnvironment.loop, formatForEnv, hkey, hrest]
  simp [buildEnvironment, hloop secrets _ h]

end Summon

open Summon secretsyml

/-- C9. With exactly one provider `p` and a secrets map with distinct keys: when `p.Value`
succeeds on the path of every variable spec, `resolveVariables` returns no error and a map
with the keys of the secrets map, in which a key whose spec is not a variable has the path
of the spec and a key whose spec is a variable has the string of the bytes `p.Value`
returned; and when `p.Value` fails on the path of some variable spec, `resolveVariables`
returns the error of such a spec. -/
theorem resolveVariables_single_provider (p : provider.Provider) (secretsMap : SecretsMap)
    (hkeys : (secretsMap.map Prod.fst).Nodup) :
    ((∀ key spec, (key, spec) ∈ secretsMap → spec.IsVar = true →
        ∃ bytes, p.Value spec.Path = .ok bytes) →
      (resolveVariables [p] secretsMap).2 = none ∧
      (resolveVariables [p] secretsMap).1.map Prod.fst = secretsMap.map Prod.fst ∧
      ∀ key spec, (key, spec) ∈ secretsMap →
        (spec.IsVar = false →
          (resolveVariables [p] secretsMap).1.lookup key = some spec.Path) ∧
        (∀ bytes, spec.IsVar = true → p.Value spec.Path = .ok bytes →
          (resolveVariables [p] secretsMap).1.lookup key = some bytes.string)) ∧
    ((∃ key spec err, (key, spec) ∈ secretsMap ∧ spec.IsVar = true ∧
        p.Value spec.Path = .error err) →
      ∃ key spec err, (key, spec) ∈ secretsMap ∧ spec.IsVar = true ∧
        p.Value spec.Path = .error err ∧
        (resolveVariables [p] secretsMap).2 = some err) := by
  refine ⟨?_, fun h => resolveVariables_loop_error p secretsMap [] h⟩
  intro hok
  have hloop := resolveVariables_loop_ok p secretsMap [] hok hkeys (by simp)
  have hres : resolveVariables [p] secretsMap =
      (secretsMap.map (fun e => (e.1, resolvedValue p e.2)), none) := by
    unfold resolveVariables; rw [hloop]; simp
  have hfst : (secretsMap.map (fun e => (e.1, resolvedValue p e.2))).map Prod.fst =
      secretsMap.map Prod.fst := by
    simp [List.map_map, Function.comp_def]
  rw [hres]
  refine ⟨rfl, hfst, ?_⟩
  intro key spec hmem
  have hlook : (secretsMap.map (fun e => (e.1, resolvedValue p e.2))).lookup key =
      some (resolvedValue p spec) :=
    lookup_of_mem_nodup _ key _ (by rw [hfst]; exact hkeys)
      (List.mem_map.2 ⟨(key, spec), hmem, rfl⟩)
  refine ⟨?_, ?_⟩
  · intro hv
    rw [hlook]
    simp [resolvedValue, hv]
  · intro bytes hv hb
    rw [hlook]
    simp [resolvedValue, hv, hb]

/-- C9 at the map `a: literal "x"`, `b: variable "secret/y"` with a provider whose value of
`"secret/y"` is `"Z"`: the result is `a: "x"`, `b: "Z"` without error; and at a map where
the provider fails on a variable, the error of the provider is returned. -/
theorem resolveVariables_single_provider_witness :
    (sampleSecretsMap.map Prod.fst).Nodup ∧
    ((resolveVariables [sampleSecretProvider] sampleSecretsMap).2 = none ∧
      (resolveVariables [sampleSecretProvider] sampleSecretsMap).1.map Prod.fst =
        sampleSecretsMap.map Prod.fst ∧
      ∀ key spec, (key, spec) ∈ sampleSecretsMap →
        (spec.IsVar = false →
          (resolveVariables [sampleSecretProvider] sampleSecretsMap).1.lookup key =
            some spec.Path) ∧
        (∀ bytes, spec.IsVar = true → sampleSecretProvider.Value spec.Path = .ok bytes →
          (resolveVariables [sampleSecretProvider] sampleSecretsMap).1.lookup key =
            some bytes.string)) ∧
    resolveVariables [sampleSecretProvider] sampleSecretsMap =
      ([("a", "x"), ("b", "Z")], none) ∧
    (∃ key spec err, (key, spec) ∈ missingSecretsMap ∧ spec.IsVar = true ∧
      sampleSecretProvider.Value spec.Path = .error err ∧
      (resolveVariables [sampleSecretProvider] missingSecretsMap).2 = some err) :=
  ⟨by decide,
    (resolveVariables_single_provider sampleSecretProvider sampleSecretsMap (by decide)).1
      (by
        intro key spec hm hv
        simp only [sampleSecretsMap, List.mem_cons, Prod.mk.injEq, List.mem_nil_iff, List.mem_singleton,
          or_false] at hm
        rcases hm with ⟨_, rfl⟩ | ⟨_, rfl⟩
        · exact absurd hv (by decide)
        · exact ⟨⟨"Z"⟩, rfl⟩),
    by decide,
    (resolveVariables_single_provider sampleSecretProvider missingSecretsMap (by decide)).2
      ⟨"c", { Tags := [.Var], Path := "secret/none" }, "no such secret: secret/none",
        by decide, by decide, rfl⟩⟩

/-- C10 fails on the code: for the secrets `a = "x"`, `b = "Z"`, whose specs are not files,
`buildEnvironment` returns four strings, two empty ones followed by `a=x` and `b=Z`. -/
theorem buildEnvironment_leading_empty_strings :
    (∀ key ∈ [("a", "x"), ("b", "Z")].map Prod.fst,
      (mapGet sampleSecretsMap key).IsFile = false) ∧
    buildEnvironment samplePush [("a", "x"), ("b", "Z")] sampleSecretsMap [] =
      ((["", "", "a=x", "b=Z"], none), []) ∧
    (buildEnvironment samplePush [("a", "x"), ("b", "Z")] sampleSecretsMap []).1.1.length = 4 ∧
    "" ∈ (buildEnvironment samplePush [("a", "x"), ("b", "Z")] sampleSecretsMap []).1.1 :=
  ⟨by decide, by decide, by decide, by decide⟩

/-- C8 at a listener on a unix socket: one bind on `"unix"` at `Socket`, with the signal
registration and the handler goroutine in the trace. -/
theorem Listen_bind_mode_witness :
    (pgProxy.Listen sampleEnv [] sockListener ⟨1⟩).trace.filterMap Effect.bind? =
      [("unix", sockListener.Socket)] ∧
    Effect.netListen "unix" sockListener.Socket
        (sampleEnv.netListen [] "unix" sockListener.Socket) ∈
      (pgProxy.Listen sampleEnv [] sockListener ⟨1⟩).trace ∧
    (pgProxy.Listen sampleEnv [] sockListener ⟨1⟩).trace.filter Effect.isSignalSetup =
      [.signalNotify [.Interrupt, .Kill, .SIGTERM],
       .goSignalHandler (sampleEnv.netListen [] "unix" sockListener.Socket).toOption] :=
  (Listen_bind_mode sampleEnv pgProxy [] sockListener ⟨1⟩).2.1 rfl

end Secretless
